import Mathlib

/-!
Verification development for the activity-planning pipeline of the
Ai-Activity-Planner repository.

The definitions below are a shallow embedding of the Python source:

* `routes/planning.py` — quota gate, readiness resolution, prompt builder
  (`_build_planning_prompt`), heuristic mock planner (`_generate_mock_plan`),
  and the markdown-stripping / JSON-parsing normalizer inside `generate_plan`;
* `utils/helpers.py` — unit conversion and derived condition flags of
  `get_weather_forecast`, and its degenerate single-entry fallback forecast.

Python `datetime.date` values are modelled as proleptic-Gregorian ordinals
(`Nat`, day 1 = 0001-01-01, a Monday, exactly as `date.toordinal`).
Python `None`-able fields are modelled as `Option`; Python truthiness is
modelled explicitly (`None`, `0`, `""`, `[]` are falsy).  Database reads that
happen inside the Python functions (the appointment query, `current_user`
fields) become explicit parameters.  Floats produced by `round(x, 2)` are
modelled as rationals with banker's rounding.
-/

namespace AiPlanner

/-! ### Python truthiness helpers -/

/-- Truthiness of an optional string: `None` and `""` are falsy. -/
def pyTruthyStr : Option String → Bool
  | none => false
  | some s => !s.isEmpty

/-- Truthiness of an optional integer: `None` and `0` are falsy. -/
def pyTruthyInt : Option Int → Bool
  | none => false
  | some n => n != 0

/-- Truthiness of an optional bool: `None` and `False` are falsy. -/
def pyTruthyBool : Option Bool → Bool
  | none => false
  | some b => b

/-- Truthiness of an optional list: `None` and `[]` are falsy. -/
def pyTruthyList {α : Type} : Option (List α) → Bool
  | none => false
  | some l => !l.isEmpty

/-- Python rendering of an optional integer in an f-string
(`None` renders as the text `None`). -/
def pyShowOptInt : Option Int → String
  | none => "None"
  | some n => toString n

/-- Python rendering of an optional string in an f-string. -/
def pyShowOptStr : Option String → String
  | none => "None"
  | some s => s

/-! ### Proleptic Gregorian calendar (embedding of `datetime.date`) -/

/-- Leap-year rule of the proleptic Gregorian calendar. -/
def isLeap (y : Nat) : Bool :=
  (y % 4 == 0 && y % 100 != 0) || (y % 400 == 0)

/-- Number of days in month `m` of year `y` (months outside 1..12 default
to 31; they are never reached from a valid ordinal). -/
def daysInMonth (y m : Nat) : Nat :=
  if m = 2 then (if isLeap y then 29 else 28)
  else if m = 4 ∨ m = 6 ∨ m = 9 ∨ m = 11 then 30
  else 31

/-- Number of days in year `y`. -/
def daysInYear (y : Nat) : Nat :=
  if isLeap y then 366 else 365

/-- Locate the year containing day-offset `d` counted from the start of
year `y`; returns the year and the remaining day-of-year offset. -/
def yearOfOrd (y d : Nat) : Nat × Nat :=
  if _h : daysInYear y ≤ d then yearOfOrd (y + 1) (d - daysInYear y) else (y, d)
termination_by d
decreasing_by
  have h365 : 365 ≤ daysInYear y := by
    unfold daysInYear; split <;> omega
  omega

/-- Locate the month containing day-of-year offset `d` (0-based) in year
`y`, scanning from month `m`; returns the month and day-of-month offset. -/
def monthOfYearDay (y m d : Nat) : Nat × Nat :=
  if _h : daysInMonth y m ≤ d then monthOfYearDay y (m + 1) (d - daysInMonth y m)
  else (m, d)
termination_by d
decreasing_by
  have h28 : 28 ≤ daysInMonth y m := by
    unfold daysInMonth; split
    · split <;> omega
    · split <;> omega
  omega

/-- Convert an ordinal (1 = 0001-01-01) to `(year, month, day)`, as
`datetime.date.fromordinal`. -/
def ymdOfOrd (ord : Nat) : Nat × Nat × Nat :=
  let yd := yearOfOrd 1 (ord - 1)
  let md := monthOfYearDay yd.1 1 yd.2
  (yd.1, md.1, md.2 + 1)

/-- Weekday of an ordinal, Monday = 0 .. Sunday = 6, exactly as Python's
`date.weekday()` (ordinal 1, 0001-01-01, is a Monday). -/
def weekdayOf (ord : Nat) : Nat := (ord + 6) % 7

/-- Zero-padded two-digit decimal rendering (`%m`, `%d`, `%M` fields). -/
def pad2 (n : Nat) : String :=
  if n < 10 then "0" ++ toString n else toString n

/-- Four-digit year rendering (`%Y` in ISO dates). -/
def pad4 (n : Nat) : String :=
  if n < 10 then "000" ++ toString n
  else if n < 100 then "00" ++ toString n
  else if n < 1000 then "0" ++ toString n
  else toString n

/-- English weekday names (`%A`), index 0 = Monday. -/
def weekdayName (w : Nat) : String :=
  [ "Monday", "Tuesday", "Wednesday", "Thursday",
    "Friday", "Saturday", "Sunday" ].getD w "Monday"

/-- English month abbreviations (`%b`). -/
def monthAbbrev (m : Nat) : String :=
  [ "Jan", "Feb", "Mar", "Apr", "May", "Jun",
    "Jul", "Aug", "Sep", "Oct", "Nov", "Dec" ].getD (m - 1) "Jan"

/-- `strftime('%Y-%m-%d')` of an ordinal date. -/
def isoDate (ord : Nat) : String :=
  let ymd := ymdOfOrd ord
  pad4 ymd.1 ++ "-" ++ pad2 ymd.2.1 ++ "-" ++ pad2 ymd.2.2

/-- `strftime('%A, %b %d')` of an ordinal date. -/
def dayNameShort (ord : Nat) : String :=
  let ymd := ymdOfOrd ord
  weekdayName (weekdayOf ord) ++ ", " ++ monthAbbrev ymd.2.1 ++ " " ++ pad2 ymd.2.2

/-- `strftime('%A, %b %d (%Y-%m-%d)')` of an ordinal date (appointment lines). -/
def apptDateFmt (ord : Nat) : String :=
  dayNameShort ord ++ " (" ++ isoDate ord ++ ")"

/-- `strftime('%I:%M %p')` of a time of day (12-hour clock, zero padded). -/
def fmt12Hour (h m : Nat) : String :=
  let hh := h % 12
  pad2 (if hh = 0 then 12 else hh) ++ ":" ++ pad2 m ++ (if h < 12 then " AM" else " PM")

/-! ### Banker's rounding to two decimals (embedding of `round(x, 2)`) -/

/-- Round a rational to the nearest integer, ties to even (Python `round`). -/
def roundHalfEven (q : ℚ) : ℤ :=
  let f : ℤ := ⌊q⌋
  let r : ℚ := q - (f : ℚ)
  if r < 1/2 then f
  else if 1/2 < r then f + 1
  else if f % 2 = 0 then f else f + 1

/-- `round(x, 2)` on rationals. -/
def round2 (q : ℚ) : ℚ := (roundHalfEven (q * 100) : ℚ) / 100

/-- Python `repr` of a non-negative float that carries at most two decimal
places (the values produced by `round(x, 2)`): an integral value renders
with a trailing `.0`, otherwise trailing zeros are dropped. -/
def renderFloat2 (q : ℚ) : String :=
  let sgn := if q < 0 then "-" else ""
  let a : ℚ := |q|
  let ip : ℤ := ⌊a⌋
  let cents : ℤ := ⌊(a - (ip : ℚ)) * 100⌋
  if cents = 0 then sgn ++ toString ip ++ ".0"
  else if cents % 10 = 0 then sgn ++ toString ip ++ "." ++ toString (cents / 10)
  else sgn ++ toString ip ++ "." ++
    (if cents < 10 then "0" ++ toString cents else toString cents)

/-- Python rendering of an optional float (`None` renders as `None`). -/
def pyShowOptQ : Option ℚ → String
  | none => "None"
  | some q => renderFloat2 q

/-- Rendering of `{x or 0}` for an optional float: falsy (`None`/`0.0`)
renders as the integer `0`. -/
def pyShowOrZero : Option ℚ → String
  | none => "0"
  | some q => if q = 0 then "0" else renderFloat2 q

/-! ### Data records

Rows of the `activity` and `appointment` tables and the fragment of the
`user` row that `generate_plan` reads, with nullable columns as `Option`. -/

/-- An `Activity` row (`models.py`). -/
structure ActivityRec where
  id : Nat
  name : String
  location : Option String := none
  durationMinutes : Option Int := none
  intensity : Option String := none
  dependencies : Option String := none
  description : Option String := none
  preferredTime : Option String := none
  preferredDays : Option String := none
deriving DecidableEq, Repr, Inhabited

/-- An `Appointment` row (`models.py`), restricted to the fields the prompt
builder reads.  `date` is an ordinal; `time` is `(hour, minute)`. -/
structure ApptRec where
  title : String
  description : Option String := none
  date : Nat
  time : Option (Nat × Nat) := none
  durationMinutes : Option Int := none
  appointmentType : Option String := none
deriving DecidableEq, Repr

/-- The fragment of the `user` row read by `generate_plan` (the
`last_generated_schedule` / `last_schedule_date` cache writes are not
modelled; no claim concerns them). -/
structure UserRec where
  subscriptionTier : Option String := none
  planGenerationsCount : Nat := 0
  planGenerationResetDate : Option Nat := none
  fitbitConnected : Bool := false
  fitbitReadinessScore : Option Int := none
  fitbitSleepScore : Option Int := none
  ouraConnected : Bool := false
  ouraReadinessScore : Option Int := none
  manualReadinessScore : Option Int := none
  manualSleepScore : Option Int := none
  manualScoreDate : Option Nat := none
  location : Option String := none
  temperatureUnit : Option String := none
  lastCompletedActivity : Option String := none
  currentInjuries : Option String := none
  additionalInformation : Option String := none
deriving DecidableEq, Repr

/-- One normalized forecast day as built by `get_weather_forecast`
(`utils/helpers.py`).  Integer-valued fields (`round(...)` results,
probabilities, weather codes) are `Option Int`; two-decimal float sums are
`Option ℚ`. -/
structure ForecastDay where
  date : String
  dateShort : String
  tempMax : Option Int := none
  tempMin : Option Int := none
  precipitation : Option Int := none
  weathercode : Option Int := none
  sunrise : Option String := none
  sunset : Option String := none
  isToday : Bool := false
  snowfallSum : Option ℚ := none
  rainSum : Option ℚ := none
  precipUnit : String := "cm"
  isWetGround : Option Bool := none
  isSnowyGround : Option Bool := none
  windSpeed : Option Int := none
  windGusts : Option Int := none
  isWindy : Option Bool := none
  cloudCover : Option Int := none
  next3Precip : Option ℚ := none
  next3Rain : Option ℚ := none
  next3Snow : Option ℚ := none
deriving DecidableEq, Repr, Inhabited

/-! ### Weather resolver fragments (`utils/helpers.py`) -/

/-- Unit handling for the daily snowfall/rain sums
(`get_weather_forecast`, lines 235–246): for `unit='F'` the provider's
inch values are rounded and used directly; for `unit='C'` the rain sum is
converted from mm to cm (`* 0.1`) while the snowfall sum is kept
numerically unchanged (mm water equivalent read as cm of snow depth).
Returns `(snowfall_sum, rain_sum, precip_unit)`. -/
def convertDailySums (unit : String) (snowRaw rainRaw : ℚ) : ℚ × ℚ × String :=
  if unit = "F" then
    (round2 snowRaw, round2 rainRaw, "in")
  else
    (round2 snowRaw, round2 (rainRaw * (1/10)), "cm")

/-- Unit handling for the next-3-hours totals
(`get_weather_forecast`, lines 274–285): for `unit='F'` the inch totals
are used directly; for `unit='C'` precipitation and rain are converted
mm→cm (`* 0.1`) while snow is kept numerically unchanged.
Returns `(next3_precip, next3_rain, next3_snow)`. -/
def convertNext3 (unit : String) (totalPrecip totalRain totalSnow : ℚ) : ℚ × ℚ × ℚ :=
  if unit = "F" then
    (round2 totalPrecip, round2 totalRain, round2 totalSnow)
  else
    (round2 (totalPrecip * (1/10)), round2 (totalRain * (1/10)), round2 totalSnow)

/-- Snow-coded Open-Meteo weather codes (71–77 snow, 85–86 snow showers). -/
def snowCodes : List Int := [71, 73, 75, 77, 85, 86]

/-- Derived surface-condition flags (`get_weather_forecast`, lines 248–257):
`(is_wet_ground, is_snowy_ground, is_windy)`.  `rainSum`/`snowfallSum` are
the already-converted sums; the Python `x and x > 0` truthiness idiom is
embedded literally. -/
def deriveFlags (weathercode : Int) (precipProb : Option Int)
    (rainSum snowfallSum : ℚ) (windSpeed windGusts : ℚ) : Bool × Bool × Bool :=
  let isWindy : Bool := windSpeed ≥ 15 || windGusts ≥ 25
  let isSnowCode : Bool := snowCodes.contains weathercode
  let isWet : Bool :=
    (precipProb.isSome && decide ((precipProb.getD 0) ≥ 40)) ||
      (rainSum != 0 && decide (rainSum > 0))
  let isSnowyGround : Bool := isSnowCode || (snowfallSum != 0 && decide (snowfallSum > 0))
  (isWet, isSnowyGround, isWindy)

/-- The degenerate single-entry fallback forecast day built when the
provider's `daily` block is missing (`get_weather_forecast`,
lines 162–186): only the date strings, `is_today=True`, `is_windy=False`,
the precipitation unit and any computable next-3-hours figures are set;
every other field — including `precipitation` — is `None`. -/
def fallbackForecastDay (dateStr dateShort : String) (precipUnitFallback : String)
    (n3p n3r n3s : Option ℚ) : ForecastDay :=
  { date := dateStr
    dateShort := dateShort
    tempMax := none
    tempMin := none
    precipitation := none
    weathercode := none
    sunrise := none
    sunset := none
    isToday := true
    snowfallSum := none
    rainSum := none
    precipUnit := precipUnitFallback
    isWetGround := none
    isSnowyGround := none
    windSpeed := none
    windGusts := none
    isWindy := some false
    cloudCover := none
    next3Precip := n3p
    next3Rain := n3r
    next3Snow := n3s }

/-! ### Readiness resolver (`routes/planning.py`, lines 214–229) -/

/-- Resolve the effective `(readiness_score, sleep_score)` for today.
Literal embedding of the `if current_user.fitbit_connected: ... elif
current_user.oura_connected and current_user.oura_readiness_score: ...`
chain followed by the manual-score fallback guarded by
`manual_score_date >= now.date()`.  `nowDate` is `now.date()` as an
ordinal. -/
def resolveReadiness (u : UserRec) (nowDate : Nat) : Option Int × Option Int :=
  let scores : Option Int × Option Int :=
    if u.fitbitConnected then
      (u.fitbitReadinessScore, u.fitbitSleepScore)
    else if u.ouraConnected && pyTruthyInt u.ouraReadinessScore then
      (u.ouraReadinessScore, none)
    else
      (none, none)
  if scores.1 = none ∧ u.manualReadinessScore ≠ none then
    match u.manualScoreDate with
    | some d => if d ≥ nowDate then (u.manualReadinessScore, u.manualSleepScore) else scores
    | none => scores
  else scores

/-! ### Quota gate (`routes/planning.py`, lines 124–156) -/

/-- Weekly limit per subscription tier: `tier_limits.get(user_tier, 3)`
with `float('inf')` modelled as `none`. -/
def tierLimit (tier : String) : Option Nat :=
  if tier = "free_tier" then some 3
  else if tier = "paid_tier" then none
  else if tier = "admin" then none
  else some 3

/-- Outcome of the quota gate: whether the request may proceed, the
(possibly reset) generation counter, the (possibly advanced) reset date,
and the error message of a 429 rejection. -/
structure QuotaOutcome where
  allowed : Bool
  count : Nat
  resetDate : Option Nat
  rejectMsg : Option String
deriving DecidableEq, Repr

/-- Lazy weekly counter reset (`generate_plan`, lines 127–135): when no
reset date is stored or the stored date is in the past, zero the counter
and set the reset date to the coming Monday (`weekday()` has Monday = 0;
when today is Monday and the stored date is not today, advance a full
week).  Returns `(count, reset_date)` after the step. -/
def quotaResetStep (storedReset : Option Nat) (count today : Nat) : Nat × Option Nat :=
  if storedReset = none ∨ (∃ r, storedReset = some r ∧ r < today) then
    let daysUntilMonday := (7 - weekdayOf today) % 7
    let daysUntilMonday :=
      if daysUntilMonday = 0 ∧ storedReset ≠ some today then 7 else daysUntilMonday
    let nextReset := today + (if daysUntilMonday > 0 then daysUntilMonday else 7)
    (0, some nextReset)
  else (count, storedReset)

/-- The full quota gate (`generate_plan`, lines 124–156): reset step, then
the tier-limit comparison; a rejection carries the 429 error text. -/
def quotaGate (u : UserRec) (today : Nat) : QuotaOutcome :=
  let st := quotaResetStep u.planGenerationResetDate u.planGenerationsCount today
  let userTier := if pyTruthyStr u.subscriptionTier then u.subscriptionTier.getD "" else "free_tier"
  match tierLimit userTier with
  | some l =>
      if st.1 ≥ l then
        let daysUntilReset : Int := (st.2.getD today : Int) - (today : Int)
        { allowed := false
          count := st.1
          resetDate := st.2
          rejectMsg := some ("You have reached your weekly limit of " ++ toString l ++
            " plan generations. Your limit resets in " ++ toString daysUntilReset ++
            " day(s). Consider upgrading to paid tier for unlimited generations!") }
      else
        { allowed := true, count := st.1, resetDate := st.2, rejectMsg := none }
  | none =>
      { allowed := true, count := st.1, resetDate := st.2, rejectMsg := none }

/-! ### Heuristic mock planner (`routes/planning.py`, lines 556–592) -/

/-- One entry of the mock plan dictionary. -/
structure MockEntry where
  dayName : String
  activity : String
  notes : String
  weather : String
deriving DecidableEq, Repr

/-- `x or d` for an optional string (`activity.intensity or 'Moderate'`). -/
def pyOrStr (o : Option String) (d : String) : String :=
  if pyTruthyStr o then o.getD d else d

/-- One day of `_generate_mock_plan`: the Python comparison
`weather['precipitation'] > 60` raises a `TypeError` when the entry's
precipitation is `None`, and `activities[i % len(activities)]` raises a
`ZeroDivisionError` on an empty list; both surface as `Except.error`. -/
def mockDay (acts : List ActivityRec) (tempUnit : Option String)
    (wf : Option (List ForecastDay)) (now i : Nat) :
    Except String (String × MockEntry) :=
  let dateKey := isoDate (now + i)
  let dayName := dayNameShort (now + i)
  if pyTruthyList wf ∧ i < (wf.getD []).length then
    let w := (wf.getD []).getD i default
    let tu := if pyTruthyStr tempUnit then tempUnit.getD "C" else "C"
    match w.precipitation with
    | none => .error "TypeError: unsupported comparison between NoneType and int"
    | some p =>
      if p > 60 then
        .ok (dateKey,
          { dayName := dayName
            activity := "Indoor Yoga or Rest"
            notes := "High precipitation (" ++ toString p ++ "%). Stay indoors."
            weather := pyShowOptInt w.tempMax ++ "°" ++ tu ++ ", " ++ toString p ++ "% rain" })
      else
        match acts with
        | [] => .error "ZeroDivisionError: integer modulo by zero"
        | _ :: _ =>
          let a := acts.getD (i % acts.length) default
          .ok (dateKey,
            { dayName := dayName
              activity := a.name
              notes := "Good weather for outdoor activities. " ++
                pyOrStr a.intensity "Moderate" ++ " intensity."
              weather := pyShowOptInt w.tempMax ++ "°" ++ tu ++ ", " ++ toString p ++ "% rain" })
  else
    match acts with
    | [] => .error "ZeroDivisionError: integer modulo by zero"
    | _ :: _ =>
      let a := acts.getD (i % acts.length) default
      .ok (dateKey,
        { dayName := dayName
          activity := if i % 3 ≠ 0 then a.name else "Rest Day"
          notes := "Scheduled based on your activity preferences."
          weather := "No weather data" })

/-- `_generate_mock_plan`: the mock plan as an ordered association list
keyed by the ISO dates of the next 7 days. -/
def generateMockPlan (acts : List ActivityRec) (now : Nat)
    (wf : Option (List ForecastDay)) (tempUnit : Option String) :
    Except String (List (String × MockEntry)) :=
  (List.range 7).mapM (mockDay acts tempUnit wf now)

/-! ### Prompt builder (`routes/planning.py`, `_build_planning_prompt`,
lines 320–553)

The appointment query and the `current_user` reads inside the Python
function become explicit parameters. -/

/-- One activity bullet (lines 324–341); absent optional attributes are
omitted (Python truthiness: `0` and `''` are also omitted). -/
def activityLine (a : ActivityRec) : String :=
  "- " ++ a.name ++
  (if pyTruthyInt a.durationMinutes then
    " (Duration: " ++ toString (a.durationMinutes.getD 0) ++ " min)" else "") ++
  (if pyTruthyStr a.intensity then " (Intensity: " ++ a.intensity.getD "" ++ ")" else "") ++
  (if pyTruthyStr a.location then " (Location: " ++ a.location.getD "" ++ ")" else "") ++
  (if pyTruthyStr a.preferredTime then
    " (Preferred Time: " ++ a.preferredTime.getD "" ++ ")" else "") ++
  (if pyTruthyStr a.preferredDays then
    " (Preferred Days: " ++ a.preferredDays.getD "" ++ ")" else "") ++
  (if pyTruthyStr a.dependencies then
    " (Dependencies: " ++ a.dependencies.getD "" ++ ")" else "") ++
  (if pyTruthyStr a.description then " - " ++ a.description.getD "" else "")

/-- Opening of the prompt (lines 360–366). -/
def promptHeader (activities : List ActivityRec) (currentDate currentTime : String) : String :=
  "Current Date & Time: " ++ currentDate ++ " at " ++ currentTime ++
  "\n\nPlease create a detailed weekly activity plan for someone who enjoys the following activities:\n\n" ++
  String.intercalate "\n" (activities.map activityLine) ++ "\n\n"

/-- One appointment bullet (lines 371–380); note that a `None`
appointment type renders literally as `None` in the f-string. -/
def apptLine (apt : ApptRec) : String :=
  "- " ++ apt.title ++ " (" ++ pyShowOptStr apt.appointmentType ++ ") on " ++
    apptDateFmt apt.date ++
  (match apt.time with
   | some hm => " at " ++ fmt12Hour hm.1 hm.2
   | none => "") ++
  (if pyTruthyInt apt.durationMinutes then
    " (" ++ toString (apt.durationMinutes.getD 0) ++ " min)" else "") ++
  (if pyTruthyStr apt.description then " - " ++ apt.description.getD "" else "")

/-- Appointments block (lines 369–381), empty when there are none. -/
def apptSection (appts : List ApptRec) : String :=
  if appts.isEmpty then ""
  else
    "\nScheduled Appointments & Responsibilities:\n" ++
    String.join (appts.map (fun a => apptLine a ++ "\n")) ++
    "\nIMPORTANT: Work activities around these appointments. Do NOT schedule conflicting activities.\n"

/-- Last-completed-activity block (lines 384–386). -/
def lastActivitySection (lastActivity : String) : String :=
  if lastActivity.isEmpty then ""
  else
    "\nLast Activity Completed:\n" ++ lastActivity ++ "\n" ++
    "Consider this when planning to ensure proper recovery and variety.\n"

/-- Injuries block (lines 389–391). -/
def injuriesSection (injuriesPains : String) : String :=
  if injuriesPains.isEmpty then ""
  else
    "\n⚠️ CURRENT INJURIES OR PAINS:\n" ++ injuriesPains ++ "\n" ++
    "CRITICAL: Avoid activities that could aggravate these conditions. Suggest modifications, lower intensity alternatives, or rest when appropriate. Prioritize recovery and safety.\n"

/-- Additional-context block (lines 394–395). -/
def extraSection (extraInfo : String) : String :=
  if extraInfo.isEmpty then ""
  else "\nAdditional Context:\n" ++ extraInfo ++ "\n"

/-- Precipitation type derived from the weather code (lines 412–422). -/
def precipTypeOf (wc : Int) : String :=
  if wc = 95 then "thunderstorm"
  else if wc = 96 ∨ wc = 99 then "thunderstorm with hail"
  else if [(71 : Int), 73, 75, 77, 85, 86].contains wc then "snow"
  else if [(56 : Int), 57, 66, 67].contains wc then "freezing rain"
  else if [(51 : Int), 53, 55, 61, 63, 65, 80, 81, 82].contains wc then "rain"
  else "none"

/-- One forecast line of the prompt (lines 401–449). -/
def weatherDayLine (tempUnitDisplay : String) (d : ForecastDay) : String :=
  let wet := pyTruthyBool d.isWetGround
  let snowy := pyTruthyBool d.isSnowyGround
  let windy := pyTruthyBool d.isWindy
  let cloudVal : Int := match d.cloudCover with | none => 0 | some c => if c = 0 then 0 else c
  let wcVal : Int := match d.weathercode with | none => 0 | some c => if c = 0 then 0 else c
  let ptype := precipTypeOf wcVal
  let shortTerm :=
    if d.isToday then
      match d.next3Precip with
      | some np =>
          " | next 3h: precip " ++ renderFloat2 np ++ "mm, rain " ++
          pyShowOrZero d.next3Rain ++ "mm, snow " ++ pyShowOrZero d.next3Snow ++ "mm"
      | none => ""
    else ""
  let conditions : List String :=
    (if wet then ["wet"] else []) ++
    (if snowy then ["snowy"] else []) ++
    (if windy then ["windy (gusts " ++ pyShowOptInt d.windGusts ++ "mph)"] else []) ++
    (if ptype = "thunderstorm" ∨ ptype = "thunderstorm with hail" then [ptype] else [])
  let surfaceNote :=
    if conditions.isEmpty then ""
    else " (Conditions: " ++ String.intercalate ", " conditions ++ ")"
  let precipInfo :=
    "Precipitation: " ++ pyShowOptInt d.precipitation ++ "%" ++
    (if ptype ≠ "none" then " (" ++ ptype ++ ")" else "")
  "- " ++ d.dateShort ++ ": " ++ pyShowOptInt d.tempMax ++ "°" ++ tempUnitDisplay ++ ", " ++
    precipInfo ++ ", Cloud: " ++ toString cloudVal ++ "%, Wind: " ++
    pyShowOptInt d.windSpeed ++ "mph" ++ shortTerm ++ ", " ++
    "Sunrise: " ++ pyShowOptStr d.sunrise ++ ", Sunset: " ++ pyShowOptStr d.sunset ++
    surfaceNote ++ "\n"

/-- Weather block of the prompt (lines 398–455), empty when the forecast
is `None` or an empty list. -/
def weatherSection (loc tempUnit : Option String)
    (wf : Option (List ForecastDay)) : String :=
  if pyTruthyList wf then
    let tud := if pyTruthyStr tempUnit then tempUnit.getD "C" else "C"
    "\nWeather forecast for " ++ pyShowOptStr loc ++ " (with daylight hours):\n" ++
    String.join ((wf.getD []).map (weatherDayLine tud)) ++
    "\nIMPORTANT: Consider sunrise/sunset times for outdoor activities that require daylight. Schedule outdoor activities during daylight hours only.\n" ++
    "If ground is wet or snowy, or if near-term rain/snow is expected (next 3h > 0mm), mark outdoor skateboarding/board sports as unsuitable and propose indoor alternatives (e.g., strength, mobility, stationary cardio).\n" ++
    "SNOW GUIDANCE: During snow conditions, avoid outdoor cycling, running, and activities requiring dry ground. Suggest indoor workouts or winter-specific activities like indoor training.\n" ++
    "THUNDERSTORM GUIDANCE: If thunderstorms are forecast, absolutely avoid ALL outdoor activities during that time. Prioritize safety and schedule indoor alternatives only.\n" ++
    "WIND GUIDANCE: If wind >= 15mph or gusts >= 25mph, avoid cycling, running on exposed routes, and outdoor activities affected by wind. Suggest indoor alternatives or sheltered locations.\n" ++
    "CLOUD GUIDANCE: High cloud cover (>80%) may reduce visibility and sunlight for outdoor activities like photography. Clear skies (<20%) are ideal for stargazing and outdoor photography.\n"
  else ""

/-- Biometric block (lines 457–479).  Python truthiness governs both the
outer `if readiness_score or sleep_score:` and the per-score inner
conditions, so a score of `0` behaves exactly like an absent score. -/
def biometricSection (firstDayName : String) (readiness sleep : Option Int) : String :=
  if pyTruthyInt readiness || pyTruthyInt sleep then
    "\nToday\x27s Biometric Data (for " ++ firstDayName ++ " ONLY - do not apply to future days):\n" ++
    (if pyTruthyInt readiness then
      "- Readiness score: " ++ toString (readiness.getD 0) ++ "/100" ++
      (if readiness.getD 0 < 30 then
        " (Low - prioritize recovery with lower intensity exercises like stretching and yoga)\n"
       else if readiness.getD 0 < 65 then
        " (Moderate - heart rate and recent sleep are about usual, body is balancing stress with recovery)\n"
       else
        " (High - body is well-rested and recovered, can handle intense activities)\n")
     else "") ++
    (if pyTruthyInt sleep then
      "- Sleep score: " ++ toString (sleep.getD 0) ++ "%" ++
      (if sleep.getD 0 < 70 then " (Poor - extra rest recommended today)\n"
       else if sleep.getD 0 < 85 then " (Moderate quality)\n"
       else " (Excellent quality)\n")
     else "") ++
    "\nIMPORTANT: These scores are ONLY for today. For future days, plan activities normally based on weather and activity preferences, as we don\x27t have readiness data for those days yet.\n"
  else ""

/-- The single/multiple-activities rule line (lines 481–485). -/
def multiInstr (allowMultiple : Bool) : String :=
  if allowMultiple then
    "13. User wants MULTIPLE activities per day when possible - schedule 2-3 activities per day based on time availability and recovery needs\n"
  else
    "13. Schedule ONE activity per day maximum (unless user has specific appointments/responsibilities)\n"

/-- The `(date_key, day_name)` pairs for the next 7 days (lines 351–357). -/
def dateKeys (now : Nat) : List (String × String) :=
  (List.range 7).map (fun i => (isoDate (now + i), dayNameShort (now + i)))

/-- One output-schema line (line 529). -/
def schemaLine (key dn : String) : String :=
  "  \"" ++ key ++ "\": \x7b\"day_name\": \"" ++ dn ++
  "\", \"activity\": \"Activity name or Rest\", \"time\": \"HH:MM\", \"duration_minutes\": 60, \"notes\": \"Brief explanation\"\x7d\n"

/-- The 7 output-schema lines (lines 528–529). -/
def schemaBlock (now : Nat) : String :=
  String.join ((dateKeys now).map (fun kv => schemaLine kv.1 kv.2))

/-- The scheduling-rules block (lines 487–527). -/
def taskBlock (dayName0 currentTime : String) (allowMultiple : Bool) : String :=
  "\nTASK: Create a balanced 7-day activity schedule optimized for the user\x27s preferences, fitness level, and environmental conditions.\n\nCRITICAL SCHEDULING RULES:\n1. **Date-Specific Context**:\n   - TODAY is " ++
  dayName0 ++ " at " ++ currentTime ++
  "\n   - If readiness/sleep scores provided, apply ONLY to today\n   - For today\x27s activities: respect current time (if evening, schedule evening activities; if morning, schedule morning activities)\n   - Future days (days 2-7): plan based on preferences and weather only\n\n2. **Appointment Conflicts** (MUST FOLLOW):\n   - NEVER schedule activities that overlap with appointments\n   - Leave buffer time before/after appointments\n   - If appointment time unknown, assume morning slot unavailable\n\n3. **Daylight Requirements** (MUST FOLLOW):\n   - Outdoor activities requiring visibility MUST occur between sunrise and sunset\n   - Examples requiring daylight: running, cycling, hiking, outdoor sports, photography\n   - Indoor activities have no time restrictions\n\n4. **Activity Distribution**:\n   - Spread intensity levels across the week (no back-to-back high-intensity)\n   - Honor preferred days/times when specified\n   - Keep in mind recovery needs of different muscle groups and activity types to avoid overtraining any specific body part.\n   - Match activities to optimal weather conditions\n   - Try to keep the users preferred activity in mind when generating the plan.\n" ++
  (multiInstr allowMultiple).replace "13." "   -" ++
  "\n5. **Weather Optimization**:\n   - Schedule weather-dependent activities on best forecast days\n   - Reserve backup indoor activities for poor weather days\n   - Consider precipitation AND temperature for outdoor activities\n\nDECISION FRAMEWORK:\n- FOR TODAY: Readiness score → Intensity level → Time of day → Activity selection\n- FOR FUTURE DAYS: Weather forecast → Activity dependencies → Time preferences → Schedule\n\nOUTPUT FORMAT:\nReturn a valid JSON object with date keys mapping to activity details.\nUse these EXACT date keys:\n"

/-- The closing field-specification block (lines 531–551). -/
def finalBlock : String :=
  "\nFIELD SPECIFICATIONS:\n- \"day_name\": Use provided day names exactly as shown above\n- \"activity\": Activity name from user\x27s list, or \"Rest\" for recovery days\n- \"time\": 24-hour format (HH:MM) based on:\n  * Activity\x27s preferred time if specified\n  * Current time for today (schedule after current time)\n  * Daylight hours for outdoor activities\n  * Optimal time for activity type (e.g., running early morning, yoga evening)\n- \"duration_minutes\": Integer based on activity\x27s typical duration (default to activity duration if specified)\n- \"notes\": 1-2 sentences explaining why this activity fits today (weather, recovery, timing)\n\nRESPONSE REQUIREMENTS:\n1. Return ONLY valid JSON - no markdown, no explanations, no code blocks\n2. Use exact date keys provided above\n3. Every date must have an entry (use \"Rest\" for recovery days)\n4. Ensure all times are logical and follow daylight/appointment constraints\n5. Notes should reference specific factors (weather, readiness, time of day)\n\nBegin JSON output:\n"

/-- `_build_planning_prompt` (lines 320–553).  The appointment query
result and the `current_user.location` / `current_user.temperature_unit`
reads are explicit parameters; everything else mirrors the Python
function's sequential string construction. -/
def buildPlanningPrompt (activities : List ActivityRec) (appointments : List ApptRec)
    (userLocation userTempUnit : Option String) (now : Nat)
    (currentDate currentTime : String) (weatherForecast : Option (List ForecastDay))
    (readinessScore sleepScore : Option Int) (extraInfo lastActivity : String)
    (allowMultiple : Bool) (injuriesPains : String) : String :=
  promptHeader activities currentDate currentTime ++
  apptSection appointments ++
  lastActivitySection lastActivity ++
  injuriesSection injuriesPains ++
  extraSection extraInfo ++
  weatherSection userLocation userTempUnit weatherForecast ++
  biometricSection (dayNameShort now) readinessScore sleepScore ++
  taskBlock (dayNameShort now) currentTime allowMultiple ++
  schemaBlock now ++
  finalBlock

/-! ### JSON parsing (embedding of `json.loads`, strict mode)

`json.loads` skips whitespace, parses one value, skips whitespace and
requires the end of the input; this is embedded as: trim JSON whitespace
from both ends, parse one value, require full consumption.  String and
number tokens are kept as raw lexemes (escape sequences are validated but
not decoded; decoding is a function of the lexeme, so lexeme equality is
finer than decoded equality). -/

/-- The backtick character. -/
def btC : Char := Char.ofNat 96

/-- The double-quote character. -/
def qtC : Char := Char.ofNat 34

/-- The backslash character. -/
def bsC : Char := Char.ofNat 92

/-- The opening-brace character. -/
def obC : Char := Char.ofNat 123

/-- The closing-brace character. -/
def cbC : Char := Char.ofNat 125

/-- JSON whitespace: space, tab, newline, carriage return. -/
def isJsonWs (c : Char) : Bool :=
  c = ' ' || c = '\t' || c = '\n' || c = '\r'

/-- Drop leading JSON whitespace. -/
def skipWs : List Char → List Char
  | [] => []
  | c :: cs => if isJsonWs c then skipWs cs else c :: cs

/-- Trim JSON whitespace from both ends. -/
def trimJsonWs (l : List Char) : List Char :=
  ((l.dropWhile isJsonWs).reverse.dropWhile isJsonWs).reverse

/-- Parsed JSON values; string/number tokens are raw lexemes and objects
are ordered member lists (finer than Python's dict, so equality here
implies equality of the Python objects). -/
inductive Json where
  | null : Json
  | bool (b : Bool) : Json
  | num (lexeme : List Char) : Json
  | str (lexeme : List Char) : Json
  | arr (items : List Json) : Json
  | obj (members : List (List Char × Json)) : Json
deriving Repr

/-- Hexadecimal digit test (for `\uXXXX` escapes). -/
def isHexDigit (c : Char) : Bool :=
  c.isDigit || ('a' ≤ c && c ≤ 'f') || ('A' ≤ c && c ≤ 'F')

/-- The single-character JSON string escapes. -/
def escChars : List Char := [qtC, bsC, '/', 'b', 'f', 'n', 'r', 't']

/-- Parse a JSON string body after the opening quote, returning the raw
body lexeme and the input after the closing quote.  Strict mode: raw
control characters (code < 32, hence raw newlines) are rejected. -/
def parseStrBody : List Char → Option (List Char × List Char)
  | [] => none
  | c :: cs =>
    if c = qtC then some ([], cs)
    else if c = bsC then
      match cs with
      | [] => none
      | e :: cs2 =>
        if e = 'u' then
          match cs2 with
          | h1 :: h2 :: h3 :: h4 :: cs3 =>
            if isHexDigit h1 && isHexDigit h2 && isHexDigit h3 && isHexDigit h4 then
              match parseStrBody cs3 with
              | some p => some (bsC :: 'u' :: h1 :: h2 :: h3 :: h4 :: p.1, p.2)
              | none => none
            else none
          | _ => none
        else if escChars.contains e then
          match parseStrBody cs2 with
          | some p => some (bsC :: e :: p.1, p.2)
          | none => none
        else none
    else if c.toNat < 32 then none
    else
      match parseStrBody cs with
      | some p => some (c :: p.1, p.2)
      | none => none

/-- Integer part of a JSON number: `0` or a nonzero digit followed by a
maximal digit run. -/
def parseIntPart : List Char → Option (List Char × List Char)
  | [] => none
  | c :: cs =>
    if c = '0' then some (['0'], cs)
    else if c.isDigit then
      let p := cs.span Char.isDigit
      some (c :: p.1, p.2)
    else none

/-- Optional fraction part `.digits`; not taken when absent or dotless. -/
def parseFracPart (cs : List Char) : List Char × List Char :=
  match cs with
  | c :: rest =>
    if c = '.' then
      let p := rest.span Char.isDigit
      if p.1.isEmpty then ([], cs) else (c :: p.1, p.2)
    else ([], cs)
  | [] => ([], cs)

/-- Optional exponent part `[eE][+-]?digits`. -/
def parseExpPart (cs : List Char) : List Char × List Char :=
  match cs with
  | e :: rest =>
    if e = 'e' ∨ e = 'E' then
      match rest with
      | s :: rest2 =>
        if s = '+' ∨ s = '-' then
          let p := rest2.span Char.isDigit
          if p.1.isEmpty then ([], cs) else (e :: s :: p.1, p.2)
        else
          let p := rest.span Char.isDigit
          if p.1.isEmpty then ([], cs) else (e :: p.1, p.2)
      | [] => ([], cs)
    else ([], cs)
  | [] => ([], cs)

/-- Parse a JSON number lexeme (the `NUMBER_RE` of the `json` module):
`-?(0|[1-9][0-9]*)(\.[0-9]+)?([eE][+-]?[0-9]+)?`. -/
def parseNum (cs : List Char) : Option (List Char × List Char) :=
  let sp : List Char × List Char :=
    match cs with
    | c :: rest => if c = '-' then ([c], rest) else ([], cs)
    | [] => ([], [])
  match parseIntPart sp.2 with
  | none => none
  | some ip =>
    let fp := parseFracPart ip.2
    let ep := parseExpPart fp.2
    some (sp.1 ++ ip.1 ++ fp.1 ++ ep.1, ep.2)

mutual

/-- Parse one JSON value at the head of the input (no leading
whitespace); fuel-indexed recursion. -/
def parseValue : Nat → List Char → Option (Json × List Char)
  | 0, _ => none
  | f + 1, cs =>
    match cs with
    | [] => none
    | c :: rest =>
      if c = obC then
        match skipWs rest with
        | [] => none
        | c1 :: r1 =>
          if c1 = cbC then some (Json.obj [], r1)
          else
            match parseMembers f (c1 :: r1) with
            | some p => some (Json.obj p.1, p.2)
            | none => none
      else if c = '[' then
        match skipWs rest with
        | [] => none
        | c1 :: r1 =>
          if c1 = ']' then some (Json.arr [], r1)
          else
            match parseItems f (c1 :: r1) with
            | some p => some (Json.arr p.1, p.2)
            | none => none
      else if c = qtC then
        match parseStrBody rest with
        | some p => some (Json.str p.1, p.2)
        | none => none
      else if c = 't' then
        match rest with
        | 'r' :: 'u' :: 'e' :: r => some (Json.bool true, r)
        | _ => none
      else if c = 'f' then
        match rest with
        | 'a' :: 'l' :: 's' :: 'e' :: r => some (Json.bool false, r)
        | _ => none
      else if c = 'n' then
        match rest with
        | 'u' :: 'l' :: 'l' :: r => some (Json.null, r)
        | _ => none
      else if c = '-' ∨ c.isDigit then
        match parseNum cs with
        | some p => some (Json.num p.1, p.2)
        | none => none
      else none

/-- Parse the members of a JSON object after `{` and whitespace,
consuming through the closing brace. -/
def parseMembers : Nat → List Char → Option (List (List Char × Json) × List Char)
  | 0, _ => none
  | f + 1, cs =>
    match cs with
    | c0 :: cs1 =>
      if c0 = qtC then
        match parseStrBody cs1 with
        | some kp =>
          match skipWs kp.2 with
          | c2 :: r3 =>
            if c2 = ':' then
              match parseValue f (skipWs r3) with
              | some vp =>
                match skipWs vp.2 with
                | c3 :: r6 =>
                  if c3 = ',' then
                    match parseMembers f (skipWs r6) with
                    | some mp => some ((kp.1, vp.1) :: mp.1, mp.2)
                    | none => none
                  else if c3 = cbC then some ([(kp.1, vp.1)], r6)
                  else none
                | [] => none
              | none => none
            else none
          | [] => none
        | none => none
      else none
    | [] => none

/-- Parse the items of a JSON array after `[` and whitespace, consuming
through the closing bracket. -/
def parseItems : Nat → List Char → Option (List Json × List Char)
  | 0, _ => none
  | f + 1, cs =>
    match parseValue f cs with
    | some vp =>
      match skipWs vp.2 with
      | c1 :: r3 =>
        if c1 = ',' then
          match parseItems f (skipWs r3) with
          | some ip => some (vp.1 :: ip.1, ip.2)
          | none => none
        else if c1 = ']' then some ([vp.1], r3)
        else none
      | [] => none
    | none => none

end

/-- `json.loads`: trim whitespace, parse one value, require the end of
input. -/
def jsonParse (s : String) : Option Json :=
  let u := trimJsonWs s.data
  match parseValue (u.length + 1) u with
  | some (v, []) => some v
  | _ => none

/-! ### Markdown-fence stripping (`generate_plan`, lines 286–289)

`re.sub(r'^```(?:json)?\s*\n', '', t, flags=re.MULTILINE)` followed by
`re.sub(r'\n```\s*$', '', t, flags=re.MULTILINE)` and `.strip()`.
`re.sub` scans left to right, removing non-overlapping matches. -/

/-- Characters matched by the regex class `\s` (ASCII). -/
def isReWs (c : Char) : Bool :=
  c = ' ' || c = '\t' || c = '\n' || c = '\r' || c = '\x0b' || c = '\x0c'

/-- Characters stripped by Python `str.strip()` (whitespace per
`str.isspace`, restricted to the code points that can occur here). -/
def isPyWs (c : Char) : Bool :=
  isReWs c || c = '\x1c' || c = '\x1d' || c = '\x1e' || c = '\x1f' ||
    c = '\x85' || c = '\xa0'

/-- Match `\s*\n` greedily with backtracking: consume the leading `\s`
run up to and including its last newline; fail if it has none. -/
def matchWsNl : List Char → Option (List Char)
  | [] => none
  | c :: rest =>
    if isReWs c then
      match matchWsNl rest with
      | some r => some r
      | none => if c = '\n' then some rest else none
    else none

/-- After the three backticks of `^```(?:json)?\s*\n`: greedily try the
optional `json` tag, then `\s*\n`. -/
def fenceTail (cs : List Char) : Option (List Char) :=
  if ['j', 's', 'o', 'n'].isPrefixOf cs then
    match matchWsNl (cs.drop 4) with
    | some r => some r
    | none => matchWsNl cs
  else matchWsNl cs

/-- Match the opening-fence regex at a line start, returning the input
after the match. -/
def matchFence : List Char → Option (List Char)
  | c1 :: c2 :: c3 :: rest =>
    if c1 = btC && c2 = btC && c3 = btC then fenceTail rest else none
  | _ => none

/-- The first `re.sub` (`^```(?:json)?\s*\n` → empty, MULTILINE): scan
with a line-start flag, removing fence matches.  Fuel-indexed; the fuel
`length + 1` always suffices since every step consumes input. -/
def sub1Aux : Nat → Bool → List Char → List Char
  | 0, _, cs => cs
  | f + 1, atStart, cs =>
    match (if atStart then matchFence cs else none) with
    | some rest => sub1Aux f true rest
    | none =>
      match cs with
      | [] => []
      | c :: rest => c :: sub1Aux f (c = '\n') rest

/-- Match `\s*$` (MULTILINE) greedily after `\n```: consume whitespace,
backtracking to a position at the end of input or before a newline. -/
def matchDollar : List Char → Option (List Char)
  | [] => some []
  | c :: rest =>
    if isReWs c then
      match matchDollar rest with
      | some r => some r
      | none => if c = '\n' then some (c :: rest) else none
    else none

/-- Match the closing-fence regex after its leading newline. -/
def matchClose : List Char → Option (List Char)
  | c1 :: c2 :: c3 :: rest =>
    if c1 = btC && c2 = btC && c3 = btC then matchDollar rest else none
  | _ => none

/-- The second `re.sub` (`\n```\s*$` → empty, MULTILINE). -/
def sub2Aux : Nat → List Char → List Char
  | 0, cs => cs
  | f + 1, cs =>
    match cs with
    | [] => []
    | c :: rest =>
      if c = '\n' then
        match matchClose rest with
        | some rem => sub2Aux f rem
        | none => c :: sub2Aux f rest
      else c :: sub2Aux f rest

/-- Python `str.strip()` on a character list. -/
def pyStripList (l : List Char) : List Char :=
  ((l.dropWhile isPyWs).reverse.dropWhile isPyWs).reverse

/-- The response normalizer (`generate_plan`, lines 286–289): strip
fence markers with the two `re.sub` calls, then `.strip()`. -/
def normalizePlanText (s : String) : String :=
  let l1 := sub1Aux (s.data.length + 1) true s.data
  let l2 := sub2Aux (l1.length + 1) l1
  ⟨pyStripList l2⟩

/-! ### The `generate_plan` request handler (lines 117–317)

Network and clock effects become parameters: `weatherData` is the result
of the `get_weather_forecast` call (made only when the user has a truthy
location), `now`/`currentDate`/`currentTime` are the injected local time,
`appts` is the appointment-query result, `hasClient` says whether an
OpenAI client is configured, and `completion` is the completion call's
text (`none` models a raised exception). -/

/-- The JSON body of a generation request. -/
structure GenRequest where
  extraInfo : String := ""
  lastActivity : String := ""
  injuriesPains : String := ""
  allowMultiple : Bool := false
  excludedActivityIds : List Nat := []
deriving Repr

/-- Outcome of `generate_plan`: an HTTP rejection with its error text, a
mock plan, a parsed structured plan, an unparsed text plan, or a caught
server error. -/
inductive GenResult where
  | rejected (status : Nat) (msg : String)
  | mockOk (plan : List (String × MockEntry))
  | structured (plan : Json)
  | unstructured (text : String)
  | serverError (msg : String)

/-- `generate_plan`: quota gate, activity checks, exclusion filter,
readiness resolution, prompt build, then the mock / completion path.
Returns the response together with the updated user row. -/
def generatePlan (u : UserRec) (acts : List ActivityRec) (req : GenRequest)
    (today : Nat) (weatherData : Option (List ForecastDay × String))
    (now : Nat) (currentDate currentTime : String) (appts : List ApptRec)
    (hasClient : Bool) (completion : Option String) : GenResult × UserRec :=
  let gate := quotaGate u today
  let u1 := { u with planGenerationsCount := gate.count,
                     planGenerationResetDate := gate.resetDate }
  if !gate.allowed then
    (GenResult.rejected 429 (gate.rejectMsg.getD ""), u1)
  else if acts.isEmpty then
    (GenResult.rejected 400 "Please add some activities first!", u1)
  else
    let u2 := { u1 with
      lastCompletedActivity :=
        if !req.lastActivity.isEmpty then some req.lastActivity else none
      currentInjuries :=
        if !req.injuriesPains.isEmpty then some req.injuriesPains else none
      additionalInformation :=
        if !req.extraInfo.isEmpty then some req.extraInfo else none }
    let acts2 :=
      if !req.excludedActivityIds.isEmpty then
        acts.filter (fun a => !req.excludedActivityIds.contains a.id)
      else acts
    if !req.excludedActivityIds.isEmpty && acts2.isEmpty then
      (GenResult.rejected 400 "Please include at least one activity in your plan!", u2)
    else
      let wf := if pyTruthyStr u.location then weatherData.map (·.1) else none
      let rs := resolveReadiness u2 now
      let _prompt := buildPlanningPrompt acts2 appts u.location u.temperatureUnit now
        currentDate currentTime wf rs.1 rs.2 req.extraInfo req.lastActivity
        req.allowMultiple req.injuriesPains
      if !hasClient then
        match generateMockPlan acts2 now wf u.temperatureUnit with
        | .ok plan => (GenResult.mockOk plan, u2)
        | .error e => (GenResult.serverError ("Error generating plan: " ++ e), u2)
      else
        match completion with
        | none => (GenResult.serverError "Error generating plan: completion call failed", u2)
        | some txt =>
          if txt.isEmpty || (String.mk (pyStripList txt.data)).isEmpty then
            (GenResult.rejected 500 "AI returned empty response. Please try again.", u2)
          else
            match jsonParse (normalizePlanText txt) with
            | some j =>
                (GenResult.structured j,
                 { u2 with planGenerationsCount := u2.planGenerationsCount + 1 })
            | none =>
                (GenResult.unstructured txt,
                 { u2 with planGenerationsCount := u2.planGenerationsCount + 1 })

/-- The manual scores are usable by the readiness resolver: a manual
readiness score is present and the recorded date is on or after today. -/
def manualScoresUsable (u : UserRec) (nowDate : Nat) : Prop :=
  u.manualReadinessScore ≠ none ∧ ∃ d, u.manualScoreDate = some d ∧ nowDate ≤ d

instance (u : UserRec) (nowDate : Nat) : Decidable (manualScoresUsable u nowDate) := by
  unfold manualScoresUsable
  infer_instance

/-! ### Predicates for the normalizer round-trip development -/

/-- Every backtick in the list is immediately preceded by a character
that is not a newline (in particular no backtick opens the list).  This
is the shape invariant that keeps the MULTILINE fence regexes from
matching inside a valid JSON text. -/
def btGuarded (l : List Char) : Prop :=
  ∀ pre post, l = pre ++ btC :: post → ∃ pre2 x, pre = pre2 ++ [x] ∧ x ≠ '\n'

/-- Characters that can start a JSON value. -/
def isValHead (ch : Char) : Bool :=
  ch = obC || ch = '[' || ch = qtC || ch = 't' || ch = 'f' || ch = 'n' ||
    ch = '-' || ch.isDigit

/-- Characters that can end a JSON value. -/
def isValLast (ch : Char) : Bool :=
  ch = cbC || ch = ']' || ch = qtC || ch.isDigit || ch = 'l' || ch = 'e'

/-- Characters of a JSON number lexeme. -/
def isNumChar (ch : Char) : Bool :=
  ch.isDigit || ch = '-' || ch = '+' || ch = '.' || ch = 'e' || ch = 'E'

/-- The consumed input of a successful `parseValue`. -/
def GoodVal (c : List Char) : Prop :=
  (∃ h, c.head? = some h ∧ isValHead h = true) ∧
  (∃ x, c.getLast? = some x ∧ isValLast x = true) ∧
  btGuarded c

/-- The consumed input of a successful `parseMembers` (ends with the
closing brace). -/
def GoodMem (c : List Char) : Prop :=
  c.getLast? = some cbC ∧ btGuarded c

/-- The consumed input of a successful `parseItems` (ends with the
closing bracket). -/
def GoodItem (c : List Char) : Prop :=
  c.getLast? = some ']' ∧ btGuarded c

/-- The character-list form of the closing fence `\n`-backtick-backtick-
backtick appended by the markdown wrapper. -/
def closeFenceL : List Char := ['\n', btC, btC, btC]

/-- Every character standing right after a newline is not a backtick, so
the MULTILINE fence regexes cannot fire at a line start inside the text. -/
def noBtAfterNl (l : List Char) : Prop :=
  ∀ a b, l = a ++ '\n' :: b → ∀ y, b.head? = some y → y ≠ btC

/-! ### Concrete sample data for witnesses and counterexamples -/

/-- A free-tier user whose stored reset date (738521) is the day before
today = 738522 and whose counter sits at the limit. -/
def c3User : UserRec :=
  { subscriptionTier := some "free_tier"
    planGenerationsCount := 3
    planGenerationResetDate := some 738521 }

/-- A user with Fitbit connected but no Fitbit readiness score, and Oura
connected with a readiness score of 80. -/
def c2User : UserRec :=
  { fitbitConnected := true
    ouraConnected := true
    ouraReadinessScore := some 80 }

/-- A user with Fitbit connected and both Fitbit scores present. -/
def c2UserFitbit : UserRec :=
  { fitbitConnected := true
    fitbitReadinessScore := some 70
    fitbitSleepScore := some 88 }

/-- A user whose only scores are manual ones recorded yesterday
(99, relative to a planning date of 100). -/
def c2UserStale : UserRec :=
  { manualReadinessScore := some 50
    manualSleepScore := some 60
    manualScoreDate := some 99 }

/-- A one-activity list. -/
def sampleActivity : ActivityRec := { id := 1, name := "Run" }

/-- A minimal appointment on ordinal day 9. -/
def sampleAppt : ApptRec := { title := "Dentist", date := 9 }

/-- A free-tier user at the limit whose reset date is exactly today
(738522), so the lazy reset does not fire and the quota check rejects. -/
def c9ExhaustedUser : UserRec :=
  { subscriptionTier := some "free_tier"
    planGenerationsCount := 3
    planGenerationResetDate := some 738522 }

/-- A free-tier user with quota available (counter 0, reset date today). -/
def c9OkUser : UserRec :=
  { subscriptionTier := some "free_tier"
    planGenerationsCount := 0
    planGenerationResetDate := some 738522 }

/-- The 429 message produced for the exhausted free-tier user on its
reset day. -/
def c9QuotaMsg : String :=
  "You have reached your weekly limit of 3 plan generations. Your limit resets in 0 day(s). Consider upgrading to paid tier for unlimited generations!"

/-- A forecast day with 75% precipitation probability. -/
def c4Day : ForecastDay :=
  { date := "Monday, January 08"
    dateShort := "Mon 01/08"
    tempMax := some 20
    precipitation := some 75 }

/-- A one-day forecast whose entry has 75% precipitation probability. -/
def c4Forecast : List ForecastDay := [c4Day]

/-! ## Theorems -/

/-! ### C3 — quota gate -/

/-- **C3.** For every user whose stored quota reset date is absent or
strictly before today, the quota gate first zeroes the generation counter
and sets the reset date to the next Monday — strictly after today, at
most a week away, and a full week away when today is itself Monday —
before performing the limit comparison; hence the request is allowed (the
counter compared is 0, below every tier limit), and for every user — also
without the hypothesis — the stored reset date after the gate is on or
after today. -/
theorem c3_quota_reset (u : UserRec) (today : Nat)
    (h : u.planGenerationResetDate = none ∨
      ∃ r, u.planGenerationResetDate = some r ∧ r < today) :
    (quotaResetStep u.planGenerationResetDate u.planGenerationsCount today).1 = 0 ∧
    (∃ m, (quotaResetStep u.planGenerationResetDate u.planGenerationsCount today).2 = some m ∧
      weekdayOf m = 0 ∧ today < m ∧ m ≤ today + 7 ∧ (weekdayOf today = 0 → m = today + 7)) ∧
    (quotaGate u today).allowed = true ∧
    (quotaGate u today).count = 0 ∧
    (∀ v : UserRec, ∃ m, (quotaGate v today).resetDate = some m ∧ today ≤ m) := by
  have hne : u.planGenerationResetDate ≠ some today := by
    rcases h with h | ⟨r, hr, hlt⟩
    · simp [h]
    · rw [hr]; intro hc; injection hc with hc; omega
  have hwlt : weekdayOf today < 7 := by unfold weekdayOf; omega
  -- the reset branch, with the advance distance worked out
  have hstep :
      quotaResetStep u.planGenerationResetDate u.planGenerationsCount today =
        (0, some (today + (if weekdayOf today = 0 then 7 else 7 - weekdayOf today))) := by
    unfold quotaResetStep
    rw [if_pos h]
    dsimp only
    have hd : (if ((7 - weekdayOf today) % 7 = 0 ∧ u.planGenerationResetDate ≠ some today)
        then (7 : Nat) else (7 - weekdayOf today) % 7) =
        (if weekdayOf today = 0 then 7 else 7 - weekdayOf today) := by
      by_cases hw0 : weekdayOf today = 0
      · rw [if_pos ⟨by rw [hw0], hne⟩, if_pos hw0]
      · rw [if_neg (fun hcon => absurd hcon.1 (by omega)), if_neg hw0]
        omega
    rw [hd]
    have hpos : (if weekdayOf today = 0 then (7 : Nat) else 7 - weekdayOf today) > 0 := by
      split <;> omega
    rw [if_pos hpos]
  -- the reset step always leaves a date on or after today
  have hstep_ge : ∀ rd cnt, ∃ m,
      (quotaResetStep rd cnt today).2 = some m ∧ today ≤ m := by
    intro rd cnt
    unfold quotaResetStep
    split
    · exact ⟨_, rfl, by split <;> omega⟩
    · next hcond =>
      push_neg at hcond
      rcases rd with _ | r
      · exact absurd rfl hcond.1
      · exact ⟨r, rfl, by have := hcond.2 r rfl; omega⟩
  -- the gate's fields in terms of the reset step
  have hfields : ∀ v : UserRec,
      (quotaGate v today).resetDate =
        (quotaResetStep v.planGenerationResetDate v.planGenerationsCount today).2 ∧
      (quotaGate v today).count =
        (quotaResetStep v.planGenerationResetDate v.planGenerationsCount today).1 := by
    intro v
    unfold quotaGate
    dsimp only
    rcases htl : tierLimit (if pyTruthyStr v.subscriptionTier then
        v.subscriptionTier.getD "" else "free_tier") with _ | l
    · simp only [htl]
      exact ⟨trivial, trivial⟩
    · simp only [htl]
      split
      · exact ⟨rfl, rfl⟩
      · exact ⟨rfl, rfl⟩
  have hlimpos : ∀ t l, tierLimit t = some l → 0 < l := by
    intro t l hl
    unfold tierLimit at hl
    split at hl
    · injection hl with hl; omega
    · split at hl
      · exact Option.noConfusion hl
      · split at hl
        · exact Option.noConfusion hl
        · injection hl with hl; omega
  refine ⟨by rw [hstep], ⟨_, by rw [hstep], ?_, ?_, ?_, ?_⟩, ?_, ?_, ?_⟩
  · -- the new date is a Monday
    by_cases hw0 : weekdayOf today = 0
    · rw [if_pos hw0]
      unfold weekdayOf at hw0 ⊢
      omega
    · rw [if_neg hw0]
      unfold weekdayOf at hw0 ⊢
      omega
  · split <;> omega
  · split <;> omega
  · intro h0
    rw [if_pos h0]
  · -- allowed: the compared counter is 0, below every limit
    unfold quotaGate
    dsimp only
    rw [hstep]
    rcases htl : tierLimit (if pyTruthyStr u.subscriptionTier then
        u.subscriptionTier.getD "" else "free_tier") with _ | l
    · simp only [htl]
    · simp only [htl]
      have hl := hlimpos _ _ htl
      rw [if_neg (by simp; omega)]
  · rw [(hfields u).2, hstep]
  · intro v
    obtain ⟨m, hm, hge⟩ :=
      hstep_ge v.planGenerationResetDate v.planGenerationsCount
    exact ⟨m, by rw [(hfields v).1, hm], hge⟩

/-- Witness for C3 at a concrete input: stored reset date yesterday
(ordinal 738521), counter 3, free tier, today = 738522 (a Monday): the
gate allows the request with the counter zeroed. -/
theorem c3_quota_reset_witness :
    (quotaGate c3User 738522).allowed = true ∧
    (quotaGate c3User 738522).count = 0 := by
  have h := c3_quota_reset c3User 738522 (Or.inr ⟨738521, rfl, by omega⟩)
  exact ⟨h.2.2.1, h.2.2.2.1⟩

/-! ### C2 — readiness resolver -/

/-- **C2, counterexample.**  The claim says that when tracker A (Fitbit)
is connected but has no readiness score, a connected tracker B (Oura)
with a score is used — i.e. the resolved readiness would be `some 80`
for `c2User`.  The code branches on `fitbit_connected` alone, so the
`elif` for Oura is never reached and the snapshot is empty. -/
theorem c2_readiness_counterexample :
    resolveReadiness c2User 100 = (none, none) ∧
    (resolveReadiness c2User 100).1 ≠ c2User.ouraReadinessScore := by
  constructor
  · rfl
  · intro h
    simp [c2User] at h
    exact Option.noConfusion (h ▸ rfl : (none : Option Int) = some 80)

/-- **C2, amended.**  The precedence actually implemented: (1) if Fitbit
is connected its readiness/sleep scores are taken (even when absent),
shadowing Oura entirely; (2) else if Oura is connected with a truthy
(present, nonzero) readiness score, it is used with no sleep score;
(3) afterwards, whenever the readiness score is still absent, fresh
manual scores (present, dated on or after today) replace both scores;
(4) otherwise the scores stand as computed — in particular a manual
score dated yesterday resolves to an absent snapshot. -/
theorem c2_readiness_precedence (u : UserRec) (nowDate : Nat) :
    (u.fitbitConnected = true → u.fitbitReadinessScore ≠ none →
      resolveReadiness u nowDate = (u.fitbitReadinessScore, u.fitbitSleepScore)) ∧
    (u.fitbitConnected = true → u.fitbitReadinessScore = none →
      manualScoresUsable u nowDate →
      resolveReadiness u nowDate = (u.manualReadinessScore, u.manualSleepScore)) ∧
    (u.fitbitConnected = true → u.fitbitReadinessScore = none →
      ¬manualScoresUsable u nowDate →
      resolveReadiness u nowDate = (none, u.fitbitSleepScore)) ∧
    (u.fitbitConnected = false → u.ouraConnected = true →
      pyTruthyInt u.ouraReadinessScore = true →
      resolveReadiness u nowDate = (u.ouraReadinessScore, none)) ∧
    (u.fitbitConnected = false →
      (u.ouraConnected && pyTruthyInt u.ouraReadinessScore) = false →
      manualScoresUsable u nowDate →
      resolveReadiness u nowDate = (u.manualReadinessScore, u.manualSleepScore)) ∧
    (u.fitbitConnected = false →
      (u.ouraConnected && pyTruthyInt u.ouraReadinessScore) = false →
      ¬manualScoresUsable u nowDate →
      resolveReadiness u nowDate = (none, none)) := by
  have husable : ∀ sc : Option Int × Option Int,
      sc.1 = none → u.manualReadinessScore ≠ none → manualScoresUsable u nowDate →
      (if sc.1 = none ∧ u.manualReadinessScore ≠ none then
        match u.manualScoreDate with
        | some d => if d ≥ nowDate then (u.manualReadinessScore, u.manualSleepScore) else sc
        | none => sc
      else sc) = (u.manualReadinessScore, u.manualSleepScore) := by
    intro sc h1 h2 ⟨_, d, hd, hge⟩
    rw [if_pos ⟨h1, h2⟩, hd]
    exact if_pos hge
  have hnotusable : ∀ sc : Option Int × Option Int,
      ¬manualScoresUsable u nowDate →
      (if sc.1 = none ∧ u.manualReadinessScore ≠ none then
        match u.manualScoreDate with
        | some d => if d ≥ nowDate then (u.manualReadinessScore, u.manualSleepScore) else sc
        | none => sc
      else sc) = sc := by
    intro sc hnu
    by_cases h1 : sc.1 = none ∧ u.manualReadinessScore ≠ none
    · rw [if_pos h1]
      rcases hd : u.manualScoreDate with _ | d
      · rfl
      · show (if d ≥ nowDate then (u.manualReadinessScore, u.manualSleepScore) else sc) = sc
        exact if_neg (fun hge => hnu ⟨h1.2, d, hd, hge⟩)
    · exact if_neg h1
  refine ⟨?_, ?_, ?_, ?_, ?_, ?_⟩
  · intro hf hr
    unfold resolveReadiness
    rw [if_pos hf]
    rw [if_neg (fun hcon => hr hcon.1)]
  · intro hf hr hu
    unfold resolveReadiness
    rw [if_pos hf]
    exact husable _ (by simpa using hr) hu.1 hu
  · intro hf hr hnu
    unfold resolveReadiness
    rw [if_pos hf]
    rw [hnotusable _ hnu, hr]
  · intro hf ho hr
    unfold resolveReadiness
    rw [if_neg (show ¬(u.fitbitConnected = true) by simp [hf])]
    rw [if_pos (show (u.ouraConnected && pyTruthyInt u.ouraReadinessScore) = true by
      simp [ho, hr])]
    rw [if_neg (show ¬((u.ouraReadinessScore, (none : Option Int)).1 = none ∧
        u.manualReadinessScore ≠ none) from fun hcon => by
      have h1 := hcon.1
      rcases hx : u.ouraReadinessScore with _ | n
      · rw [hx] at hr; exact Bool.noConfusion hr
      · rw [hx] at h1; exact Option.noConfusion h1)]
  · intro hf ho hu
    unfold resolveReadiness
    rw [if_neg (show ¬(u.fitbitConnected = true) by simp [hf])]
    rw [if_neg (show ¬((u.ouraConnected && pyTruthyInt u.ouraReadinessScore) = true) by
      simp [ho])]
    exact husable _ rfl hu.1 hu
  · intro hf ho hnu
    unfold resolveReadiness
    rw [if_neg (show ¬(u.fitbitConnected = true) by simp [hf])]
    rw [if_neg (show ¬((u.ouraConnected && pyTruthyInt u.ouraReadinessScore) = true) by
      simp [ho])]
    exact hnotusable _ hnu

/-- Witness for C2's amended theorem: Fitbit shadowing with both scores
present, and the staleness rule (manual scores dated yesterday give an
absent snapshot). -/
theorem c2_readiness_precedence_witness :
    resolveReadiness c2UserFitbit 100 = (some 70, some 88) ∧
    resolveReadiness c2UserStale 100 = (none, none) := by
  constructor
  · exact (c2_readiness_precedence c2UserFitbit 100).1 rfl (by decide)
  · exact (c2_readiness_precedence c2UserStale 100).2.2.2.2.2 rfl rfl (by decide)

/-! ### C7 — precipitation unit handling -/

/-- **C7, counterexample.**  The claim says that for `unit=C` *every*
millimeter precipitation sum — rain, snowfall, and the next-3-hour
figures — is multiplied by 0.1.  The code keeps the snowfall sums
numerically unchanged (reading mm water equivalent as cm of snow): a raw
snowfall sum of 5 renders as 5, not 0.5, and a raw next-3-hour snow
total of 7 renders as 7, not 0.7. -/
theorem c7_unit_counterexample :
    (convertDailySums "C" 5 0).1 = 5 ∧
    (convertNext3 "C" 0 0 7).2.2 = 7 ∧
    (5 : ℚ) ≠ 5 * (1/10) ∧ (7 : ℚ) ≠ 7 * (1/10) := by
  refine ⟨?_, ?_, by norm_num, by norm_num⟩
  · show round2 5 = 5
    norm_num [round2, roundHalfEven]
  · show round2 7 = 7
    norm_num [round2, roundHalfEven]

/-- **C7, amended.**  For `unit=F` the provider's inch sums are used
directly (only rounded to two decimals, no unit conversion); for
`unit=C` the rain sum and the next-3-hour precipitation and rain totals
are divided by 10 (mm→cm) before rounding, while the snowfall figures
(daily and next-3-hour) are *not* scaled. -/
theorem c7_unit_conversion (snowRaw rainRaw p r s : ℚ) :
    ((convertDailySums "F" snowRaw rainRaw).1 = round2 snowRaw ∧
     (convertDailySums "F" snowRaw rainRaw).2.1 = round2 rainRaw ∧
     (convertDailySums "F" snowRaw rainRaw).2.2 = "in" ∧
     convertNext3 "F" p r s = (round2 p, round2 r, round2 s)) ∧
    ((convertDailySums "C" snowRaw rainRaw).2.1 = round2 (rainRaw / 10) ∧
     (convertNext3 "C" p r s).1 = round2 (p / 10) ∧
     (convertNext3 "C" p r s).2.1 = round2 (r / 10)) ∧
    ((convertDailySums "C" snowRaw rainRaw).1 = round2 snowRaw ∧
     (convertDailySums "C" snowRaw rainRaw).2.2 = "cm" ∧
     (convertNext3 "C" p r s).2.2 = round2 s) := by
  have h10 : ∀ q : ℚ, q * (1/10) = q / 10 := by intro q; ring
  have hcf : ¬(("C" : String) = "F") := by decide
  unfold convertDailySums convertNext3
  norm_num [h10, hcf]

/-! ### C8 — derived condition flags -/

/-- **C8.**  For every forecast day's raw inputs, `is_wet_ground` holds
iff the precipitation probability is present and at least 40 or the rain
sum is positive; `is_snowy_ground` holds iff the weather code is
snow-coded or the snowfall sum is positive; `is_windy` holds iff the
sustained wind is at least 15 mph or the gusts at least 25 mph — in
particular wind 20/gusts 30 is windy and wind 10/gusts 20 is not. -/
theorem c8_condition_flags (wc : Int) (pp : Option Int) (rain snow wsp wg : ℚ) :
    ((deriveFlags wc pp rain snow wsp wg).1 = true ↔
      (∃ p, pp = some p ∧ 40 ≤ p) ∨ 0 < rain) ∧
    ((deriveFlags wc pp rain snow wsp wg).2.1 = true ↔
      wc ∈ snowCodes ∨ 0 < snow) ∧
    ((deriveFlags wc pp rain snow wsp wg).2.2 = true ↔ 15 ≤ wsp ∨ 25 ≤ wg) ∧
    (deriveFlags 0 none 0 0 20 30).2.2 = true ∧
    (deriveFlags 0 none 0 0 10 20).2.2 = false := by
  refine ⟨?_, ?_, ?_, by decide, by decide⟩
  · show ((pp.isSome && decide ((pp.getD 0) ≥ 40)) ||
      (rain != 0 && decide (rain > 0))) = true ↔ _
    simp only [Bool.or_eq_true, Bool.and_eq_true, decide_eq_true_eq, bne_iff_ne, ne_eq]
    constructor
    · rintro (⟨hs, hge⟩ | ⟨_, hgt⟩)
      · rcases hp : pp with _ | p
        · rw [hp] at hs; exact absurd hs (by simp)
        · rw [hp] at hge; exact Or.inl ⟨p, rfl, by simpa using hge⟩
      · exact Or.inr hgt
    · rintro (⟨p, hp, h40⟩ | hr)
      · subst hp
        exact Or.inl ⟨by simp, by simpa using h40⟩
      · exact Or.inr ⟨ne_of_gt hr, hr⟩
  · show (snowCodes.contains wc || (snow != 0 && decide (snow > 0))) = true ↔ _
    simp only [Bool.or_eq_true, Bool.and_eq_true, decide_eq_true_eq, bne_iff_ne, ne_eq,
      List.elem_iff]
    constructor
    · rintro (hm | ⟨_, hgt⟩)
      · exact Or.inl hm
      · exact Or.inr hgt
    · rintro (hm | hs)
      · exact Or.inl hm
      · exact Or.inr ⟨ne_of_gt hs, hs⟩
  · show (decide (wsp ≥ 15) || decide (wg ≥ 25)) = true ↔ _
    simp only [Bool.or_eq_true, decide_eq_true_eq, ge_iff_le]

/-! ### C10 — zero scores behave as absent in the prompt -/

/-- **C10.**  A readiness or sleep score equal to 0 is treated by the
prompt builder exactly as an absent score: substituting `some 0` for
`none` (in either position) leaves the built prompt unchanged, and when
both effective scores are 0 or absent no biometric section is emitted at
all — so a 0-valued score is never rendered into the prompt. -/
theorem c10_zero_score_as_absent :
    (∀ acts appts loc tu now cd ct wf ss ei la am ip,
      buildPlanningPrompt acts appts loc tu now cd ct wf (some 0) ss ei la am ip =
      buildPlanningPrompt acts appts loc tu now cd ct wf none ss ei la am ip) ∧
    (∀ acts appts loc tu now cd ct wf rs ei la am ip,
      buildPlanningPrompt acts appts loc tu now cd ct wf rs (some 0) ei la am ip =
      buildPlanningPrompt acts appts loc tu now cd ct wf rs none ei la am ip) ∧
    (∀ dn, biometricSection dn (some 0) (some 0) = "" ∧
      biometricSection dn none none = "" ∧
      biometricSection dn (some 0) none = "" ∧
      biometricSection dn none (some 0) = "") := by
  have hsec0 : ∀ dn ss, biometricSection dn (some 0) ss = biometricSection dn none ss := by
    intro dn ss
    unfold biometricSection
    rfl
  have hsec0' : ∀ dn rs, biometricSection dn rs (some 0) = biometricSection dn rs none := by
    intro dn rs
    unfold biometricSection pyTruthyInt
    rcases rs with _ | n <;> rfl
  refine ⟨?_, ?_, ?_⟩
  · intro acts appts loc tu now cd ct wf ss ei la am ip
    unfold buildPlanningPrompt
    rw [hsec0]
  · intro acts appts loc tu now cd ct wf rs ei la am ip
    unfold buildPlanningPrompt
    rw [hsec0']
  · intro dn
    refine ⟨?_, ?_, ?_, ?_⟩ <;> rfl

/-! ### C1 — prompt determinism and the seven date keys -/

/-- **C1, counterexample.**  The claim's input tuple (activities,
injected now and current date/time strings, forecast, readiness, free
texts, allow-multiple flag) is held fixed here — the two calls differ
only in the user's stored appointment table, which
`_build_planning_prompt` reads from the database — yet the built prompts
differ, so the prompt is not a pure function of the claimed tuple
alone. -/
theorem c1_prompt_counterexample :
    buildPlanningPrompt [sampleActivity] [] none none 8 "cd" "ct"
      none none none "" "" false "" ≠
    buildPlanningPrompt [sampleActivity] [sampleAppt] none none 8 "cd" "ct"
      none none none "" "" false "" := by
  decide

/-- **C1, amended.**  Over the full input record — the claimed tuple
*plus* the appointment-query result and the user's stored location and
temperature unit — the prompt builder is a pure function (two calls with
identical inputs yield identical text), and its output decomposes around
the output-schema section, which consists of exactly the 7 schema lines
for the ISO dates `today+0 .. today+6`, in chronological order, each
date key embedded verbatim. -/
theorem c1_prompt_datekeys (acts : List ActivityRec) (appts : List ApptRec)
    (loc tu : Option String) (now : Nat) (cd ct : String)
    (wf : Option (List ForecastDay)) (rs ss : Option Int)
    (ei la : String) (am : Bool) (ip : String) :
    buildPlanningPrompt acts appts loc tu now cd ct wf rs ss ei la am ip =
      buildPlanningPrompt acts appts loc tu now cd ct wf rs ss ei la am ip ∧
    ∃ pre post,
      buildPlanningPrompt acts appts loc tu now cd ct wf rs ss ei la am ip =
        pre ++ String.join ((List.range 7).map (fun i =>
          "  \"" ++ isoDate (now + i) ++ "\": \x7b\"day_name\": \"" ++
          dayNameShort (now + i) ++
          "\", \"activity\": \"Activity name or Rest\", \"time\": \"HH:MM\", \"duration_minutes\": 60, \"notes\": \"Brief explanation\"\x7d\n")) ++
        post := by
  refine ⟨rfl, promptHeader acts cd ct ++ apptSection appts ++ lastActivitySection la ++
    injuriesSection ip ++ extraSection ei ++ weatherSection loc tu wf ++
    biometricSection (dayNameShort now) rs ss ++ taskBlock (dayNameShort now) ct am,
    finalBlock, ?_⟩
  rfl

/-! ### C4 / C5 — the heuristic mock planner -/

/-- One day of the mock planner when no forecast exists at all: every
third day (index divisible by 3) is a rest day, the others cycle through
the activity list by index modulo its length. -/
theorem mockDay_no_forecast (acts : List ActivityRec) (tu : Option String)
    (now i : Nat) (hne : acts ≠ []) :
    mockDay acts tu none now i = .ok (isoDate (now + i),
      { dayName := dayNameShort (now + i)
        activity := if i % 3 ≠ 0 then (acts.getD (i % acts.length) default).name
          else "Rest Day"
        notes := "Scheduled based on your activity preferences."
        weather := "No weather data" }) := by
  unfold mockDay
  rw [if_neg (fun hc => by simpa [pyTruthyList] using hc.1)]
  rcases acts with _ | ⟨a, as⟩
  · exact absurd rfl hne
  · rfl

/-- One day of the mock planner under a forecast: a day with an
in-range entry follows the precipitation threshold; a day beyond the
forecast keeps its ISO key. -/
theorem mockDay_forecast (acts : List ActivityRec) (tu : Option String)
    (wfl : List ForecastDay) (now i : Nat) (hne : acts ≠ [])
    (hp : ∀ j, (hj : j < wfl.length) → j < 7 → wfl[j].precipitation ≠ none)
    (hi : i < 7) :
    ∃ e : MockEntry, mockDay acts tu (some wfl) now i = .ok (isoDate (now + i), e) ∧
      e.dayName = dayNameShort (now + i) ∧
      ∀ d p, wfl[i]? = some d → d.precipitation = some p →
        (60 < p → e.activity = "Indoor Yoga or Rest" ∧
          e.notes = "High precipitation (" ++ toString p ++ "%). Stay indoors.") ∧
        (p ≤ 60 → e.activity = (acts.getD (i % acts.length) default).name) := by
  unfold mockDay
  by_cases hin : pyTruthyList (some wfl) = true ∧
      i < ((some wfl : Option (List ForecastDay)).getD []).length
  · rw [if_pos hin]
    have hil : i < wfl.length := by simpa using hin.2
    have hw : ((some wfl : Option (List ForecastDay)).getD []).getD i default = wfl[i] := by
      show wfl.getD i default = wfl[i]
      rw [List.getD_eq_getElem?_getD, List.getElem?_eq_getElem hil]
      rfl
    rw [hw]
    dsimp only
    have hq0 := hp i hil hi
    rcases hq : wfl[i].precipitation with _ | p
    · exact absurd hq hq0
    · have hgd : wfl[i]? = some wfl[i] := List.getElem?_eq_getElem hil
      dsimp only
      by_cases h60 : p > 60
      · rw [if_pos h60]
        refine ⟨_, rfl, rfl, ?_⟩
        intro d p2 hd hp2
        rw [hgd] at hd
        injection hd with hd
        rw [← hd, hq] at hp2
        injection hp2 with hp2
        subst hp2
        exact ⟨fun _ => ⟨rfl, rfl⟩, fun hle => absurd h60 (by omega)⟩
      · rw [if_neg h60]
        rcases hacts : acts with _ | ⟨a, as⟩
        · exact absurd hacts hne
        · refine ⟨_, rfl, rfl, ?_⟩
          intro d p2 hd hp2
          rw [hgd] at hd
          injection hd with hd
          rw [← hd, hq] at hp2
          injection hp2 with hp2
          subst hp2
          exact ⟨fun hgt => absurd hgt h60, fun _ => rfl⟩
  · rw [if_neg hin]
    rcases hacts : acts with _ | ⟨a, as⟩
    · exact absurd hacts hne
    · refine ⟨_, rfl, rfl, ?_⟩
      intro d p hd hp2
      exfalso
      have hlen : i < wfl.length := by
        have := List.getElem?_eq_some_iff.mp hd
        exact this.1
      have hwne : wfl ≠ [] := by
        intro hnil
        rw [hnil] at hlen
        simp at hlen
      exact hin ⟨by simp [pyTruthyList, hwne], by simpa using hlen⟩

/-- **C4.**  For every non-empty activity list and injected now, the
heuristic fallback planner returns a plan keyed by the 7 ISO dates
`today+0 .. today+6` in order, in which: with no forecast at all, every
day with index divisible by 3 is the fixed rest day and the others cycle
through the activity list by index modulo its length; with a forecast
whose in-range entries carry numeric precipitation probabilities, a day
whose entry has probability strictly above 60 gets the fixed indoor/rest
activity with the precipitation rationale, and every other in-range day
gets `activities[i % len]`. -/
theorem c4_mock_heuristic (acts : List ActivityRec) (now : Nat) (tu : Option String)
    (hne : acts ≠ []) :
    (∃ plan, generateMockPlan acts now none tu = .ok plan ∧
      plan.length = 7 ∧
      ∀ i, i < 7 →
        plan[i]? = some (isoDate (now + i),
          { dayName := dayNameShort (now + i)
            activity := if i % 3 ≠ 0 then (acts.getD (i % acts.length) default).name
              else "Rest Day"
            notes := "Scheduled based on your activity preferences."
            weather := "No weather data" })) ∧
    (∀ wfl : List ForecastDay,
      (∀ j, (hj : j < wfl.length) → j < 7 → wfl[j].precipitation ≠ none) →
      ∃ plan, generateMockPlan acts now (some wfl) tu = .ok plan ∧
        plan.length = 7 ∧
        ∀ i, i < 7 → ∃ e : MockEntry,
          plan[i]? = some (isoDate (now + i), e) ∧
          e.dayName = dayNameShort (now + i) ∧
          ∀ d p, wfl[i]? = some d → d.precipitation = some p →
            (60 < p → e.activity = "Indoor Yoga or Rest" ∧
              e.notes = "High precipitation (" ++ toString p ++ "%). Stay indoors.") ∧
            (p ≤ 60 → e.activity = (acts.getD (i % acts.length) default).name)) := by
  constructor
  · refine ⟨(List.range 7).map (fun i => (isoDate (now + i),
      { dayName := dayNameShort (now + i)
        activity := if i % 3 ≠ 0 then (acts.getD (i % acts.length) default).name
          else "Rest Day"
        notes := "Scheduled based on your activity preferences."
        weather := "No weather data" : MockEntry })), ?_, by simp, ?_⟩
    · unfold generateMockPlan
      rw [show List.range 7 = [0, 1, 2, 3, 4, 5, 6] from rfl]
      simp only [List.mapM_cons, List.mapM_nil,
        mockDay_no_forecast acts tu now 0 hne, mockDay_no_forecast acts tu now 1 hne,
        mockDay_no_forecast acts tu now 2 hne, mockDay_no_forecast acts tu now 3 hne,
        mockDay_no_forecast acts tu now 4 hne, mockDay_no_forecast acts tu now 5 hne,
        mockDay_no_forecast acts tu now 6 hne]
      rfl
    · intro i hi
      simp only [List.getElem?_map, List.getElem?_range, hi, if_pos]
      rfl
  · intro wfl hp
    obtain ⟨e0, he0, hn0, hq0⟩ := mockDay_forecast acts tu wfl now 0 hne hp (by omega)
    obtain ⟨e1, he1, hn1, hq1⟩ := mockDay_forecast acts tu wfl now 1 hne hp (by omega)
    obtain ⟨e2, he2, hn2, hq2⟩ := mockDay_forecast acts tu wfl now 2 hne hp (by omega)
    obtain ⟨e3, he3, hn3, hq3⟩ := mockDay_forecast acts tu wfl now 3 hne hp (by omega)
    obtain ⟨e4, he4, hn4, hq4⟩ := mockDay_forecast acts tu wfl now 4 hne hp (by omega)
    obtain ⟨e5, he5, hn5, hq5⟩ := mockDay_forecast acts tu wfl now 5 hne hp (by omega)
    obtain ⟨e6, he6, hn6, hq6⟩ := mockDay_forecast acts tu wfl now 6 hne hp (by omega)
    refine ⟨[(isoDate (now + 0), e0), (isoDate (now + 1), e1), (isoDate (now + 2), e2),
      (isoDate (now + 3), e3), (isoDate (now + 4), e4), (isoDate (now + 5), e5),
      (isoDate (now + 6), e6)], ?_, rfl, ?_⟩
    · unfold generateMockPlan
      rw [show List.range 7 = [0, 1, 2, 3, 4, 5, 6] from rfl]
      simp only [List.mapM_cons, List.mapM_nil, he0, he1, he2, he3, he4, he5, he6]
      rfl
    · intro i hi
      interval_cases i
      · exact ⟨e0, rfl, hn0, hq0⟩
      · exact ⟨e1, rfl, hn1, hq1⟩
      · exact ⟨e2, rfl, hn2, hq2⟩
      · exact ⟨e3, rfl, hn3, hq3⟩
      · exact ⟨e4, rfl, hn4, hq4⟩
      · exact ⟨e5, rfl, hn5, hq5⟩
      · exact ⟨e6, rfl, hn6, hq6⟩

/-- Witness for C4 at concrete inputs: one activity, today = ordinal 8;
with no forecast, and with a one-day forecast at 75% precipitation the
first day gets the fixed indoor/rest activity. -/
theorem c4_mock_heuristic_witness :
    (∃ plan, generateMockPlan [sampleActivity] 8 none none = .ok plan ∧
      plan.length = 7) ∧
    (∃ plan e, generateMockPlan [sampleActivity] 8 (some c4Forecast) none = .ok plan ∧
      plan.length = 7 ∧ plan[0]? = some (isoDate 8, e) ∧
      e.activity = "Indoor Yoga or Rest") := by
  constructor
  · obtain ⟨plan, h1, h2, _⟩ :=
      (c4_mock_heuristic [sampleActivity] 8 none (by decide)).1
    exact ⟨plan, h1, h2⟩
  · obtain ⟨plan, h1, h2, h3⟩ :=
      (c4_mock_heuristic [sampleActivity] 8 none (by decide)).2 c4Forecast
        (by intro j hj _; interval_cases j <;> simp [c4Forecast, c4Day] at hj ⊢)
    obtain ⟨e, he, _, hq⟩ := h3 0 (by omega)
    have hind := (hq c4Day 75 rfl rfl).1 (by norm_num)
    exact ⟨plan, e, h1, h2, he, hind.1⟩

/-- **C5.**  The weather resolver's degenerate single-entry fallback
forecast carries `precipitation = None`; feeding it to the heuristic
fallback planner makes the Python comparison
`weather['precipitation'] > 60` raise a `TypeError` instead of producing
a 7-day plan — the comparison is not total on every reachable forecast
entry, contradicting the code's own stated purpose for the fallback
("so the UI and planning routes don't crash"). -/
theorem c5_fallback_forecast_crash :
    (fallbackForecastDay "Monday, January 08" "Mon 01/08" "cm"
      none none none).precipitation = none ∧
    generateMockPlan [sampleActivity] 8
      (some [fallbackForecastDay "Monday, January 08" "Mon 01/08" "cm" none none none])
      none = .error "TypeError: unsupported comparison between NoneType and int" := by
  exact ⟨rfl, rfl⟩

/-! ### C9 — invalid-activity rejections -/

/-- **C9, counterexample.**  The claim says *every* request by a user
with zero activities is rejected with the "add activities first" error;
but when the quota is already exhausted the quota check fires first and
the request is rejected with the 429 quota message instead. -/
theorem c9_counterexample :
    (generatePlan c9ExhaustedUser [] {} 738522 none 8 "cd" "ct" [] false none).1 =
      GenResult.rejected 429 c9QuotaMsg ∧
    (generatePlan c9ExhaustedUser [] {} 738522 none 8 "cd" "ct" [] false none).1 ≠
      GenResult.rejected 400 "Please add some activities first!" := by
  constructor
  · rfl
  · intro h
    have h429 : (generatePlan c9ExhaustedUser [] {} 738522 none 8 "cd" "ct" [] false
        none).1 = GenResult.rejected 429 c9QuotaMsg := rfl
    rw [h429] at h
    injection h with hs _
    exact absurd hs (by decide)

/-- **C9, amended.**  For every generation request that passes the quota
gate: a user with zero activities on file is rejected with the
"add activities first" error, and a request whose exclusion list removes
every activity is rejected with the "include at least one activity"
error; in both cases no plan is produced (the result is a rejection) and
the stored generation counter is exactly the gate's post-reset counter —
never incremented. -/
theorem c9_invalid_activities (u : UserRec) (acts : List ActivityRec)
    (req : GenRequest) (today : Nat) (wd : Option (List ForecastDay × String))
    (now : Nat) (cd ct : String) (appts : List ApptRec) (hasClient : Bool)
    (completion : Option String)
    (hallow : (quotaGate u today).allowed = true) :
    (acts = [] →
      (generatePlan u acts req today wd now cd ct appts hasClient completion).1 =
        GenResult.rejected 400 "Please add some activities first!" ∧
      (generatePlan u acts req today wd now cd ct appts hasClient
        completion).2.planGenerationsCount = (quotaGate u today).count) ∧
    (acts ≠ [] → req.excludedActivityIds ≠ [] →
      acts.filter (fun a => !req.excludedActivityIds.contains a.id) = [] →
      (generatePlan u acts req today wd now cd ct appts hasClient completion).1 =
        GenResult.rejected 400 "Please include at least one activity in your plan!" ∧
      (generatePlan u acts req today wd now cd ct appts hasClient
        completion).2.planGenerationsCount = (quotaGate u today).count) := by
  constructor
  · intro hacts
    subst hacts
    unfold generatePlan
    dsimp only
    rw [hallow]
    exact ⟨rfl, rfl⟩
  · intro hacts hex hfilter
    unfold generatePlan
    dsimp only
    rw [hallow]
    simp only [Bool.not_true, Bool.false_eq_true, if_false]
    rw [if_neg (by simpa [List.isEmpty_iff] using hacts)]
    rw [if_pos (by
      have h1 : req.excludedActivityIds.isEmpty = false := by
        simpa [List.isEmpty_iff] using hex
      have h2 : (if (!req.excludedActivityIds.isEmpty) = true then
          List.filter (fun a => !req.excludedActivityIds.contains a.id) acts
        else acts) = [] := by
        rw [if_pos (by rw [h1]; rfl)]
        exact hfilter
      rw [h2, h1]
      rfl)]
    exact ⟨rfl, rfl⟩

/-- Witness for C9's amended theorem at concrete inputs: a user with
available quota and no activities, and one whose single activity is
excluded by the request. -/
theorem c9_invalid_activities_witness :
    (generatePlan c9OkUser [] {} 738522 none 8 "cd" "ct" [] false none).1 =
      GenResult.rejected 400 "Please add some activities first!" ∧
    (generatePlan c9OkUser [sampleActivity] { excludedActivityIds := [1] } 738522
      none 8 "cd" "ct" [] false none).1 =
      GenResult.rejected 400 "Please include at least one activity in your plan!" := by
  constructor
  · exact ((c9_invalid_activities c9OkUser [] {} 738522 none 8 "cd" "ct" [] false none
      (by decide)).1 rfl).1
  · exact ((c9_invalid_activities c9OkUser [sampleActivity]
      { excludedActivityIds := [1] } 738522 none 8 "cd" "ct" [] false none
      (by decide)).2 (by decide) (by decide) (by decide)).1

/-! ### C6 — normalizer round-trip: character-class lemmas -/

theorem pyWs_not_digit {c : Char} (h : isPyWs c = true) : c.isDigit = false := by
  simp only [isPyWs, isReWs, Bool.or_eq_true, decide_eq_true_eq] at h
  rcases h with (((((((((((h | h) | h) | h) | h) | h) | h) | h) | h) | h) | h) | h) <;>
    subst h <;> decide

theorem jsonWs_pyWs {c : Char} (h : isJsonWs c = true) : isPyWs c = true := by
  simp only [isJsonWs, Bool.or_eq_true, decide_eq_true_eq] at h
  rcases h with ((h | h) | h) | h <;> subst h <;> decide

theorem jsonWs_reWs {c : Char} (h : isJsonWs c = true) : isReWs c = true := by
  simp only [isJsonWs, Bool.or_eq_true, decide_eq_true_eq] at h
  rcases h with ((h | h) | h) | h <;> subst h <;> decide

theorem jsonWs_ne_bt {c : Char} (h : isJsonWs c = true) : c ≠ btC :=
  fun hc => absurd (hc ▸ h) (by decide)

theorem pyWs_ne_bt {c : Char} (h : isPyWs c = true) : c ≠ btC :=
  fun hc => absurd (hc ▸ h) (by decide)

theorem valHead_not_pyWs {c : Char} (h : isValHead c = true) : isPyWs c = false := by
  by_contra hcon
  have hp : isPyWs c = true := by revert hcon; cases isPyWs c <;> simp
  have hd := pyWs_not_digit hp
  simp only [isValHead, Bool.or_eq_true, decide_eq_true_eq] at h
  rcases h with ((((((h | h) | h) | h) | h) | h) | h) | h
  all_goals first
    | (rw [h] at hd; exact Bool.noConfusion hd)
    | (subst h; revert hp; decide)

theorem valHead_not_jsonWs {c : Char} (h : isValHead c = true) : isJsonWs c = false := by
  by_contra hcon
  have hj : isJsonWs c = true := by revert hcon; cases isJsonWs c <;> simp
  have hp := jsonWs_pyWs hj
  rw [valHead_not_pyWs h] at hp
  exact Bool.noConfusion hp

theorem valHead_not_reWs {c : Char} (h : isValHead c = true) : isReWs c = false := by
  by_contra hcon
  have hj : isReWs c = true := by revert hcon; cases isReWs c <;> simp
  have hp : isPyWs c = true := by simp [isPyWs, hj]
  rw [valHead_not_pyWs h] at hp
  exact Bool.noConfusion hp

theorem valHead_ne_bt {c : Char} (h : isValHead c = true) : c ≠ btC :=
  fun hc => absurd (hc ▸ h) (by decide)

theorem valLast_not_pyWs {c : Char} (h : isValLast c = true) : isPyWs c = false := by
  by_contra hcon
  have hp : isPyWs c = true := by revert hcon; cases isPyWs c <;> simp
  have hd := pyWs_not_digit hp
  simp only [isValLast, Bool.or_eq_true, decide_eq_true_eq] at h
  rcases h with ((((h | h) | h) | h) | h) | h
  all_goals first
    | (rw [h] at hd; exact Bool.noConfusion hd)
    | (subst h; revert hp; decide)

theorem valLast_not_jsonWs {c : Char} (h : isValLast c = true) : isJsonWs c = false := by
  by_contra hcon
  have hj : isJsonWs c = true := by revert hcon; cases isJsonWs c <;> simp
  have hp := jsonWs_pyWs hj
  rw [valLast_not_pyWs h] at hp
  exact Bool.noConfusion hp

theorem numChar_ne_nl {c : Char} (h : isNumChar c = true) : c ≠ '\n' :=
  fun hc => absurd (hc ▸ h) (by decide)

theorem numChar_ne_bt {c : Char} (h : isNumChar c = true) : c ≠ btC :=
  fun hc => absurd (hc ▸ h) (by decide)

theorem ge32_ne_nl {c : Char} (h : 32 ≤ c.toNat) : c ≠ '\n' := by
  intro hc
  subst hc
  exact absurd h (by decide)

theorem digit_isValHead {c : Char} (h : c.isDigit = true) : isValHead c = true := by
  simp [isValHead, h]

theorem digit_isValLast {c : Char} (h : c.isDigit = true) : isValLast c = true := by
  simp [isValLast, h]

/-! ### C6 — list utilities -/

theorem head?_append_cases {α : Type} (a b : List α) (y : α)
    (h : (a ++ b).head? = some y) : a.head? = some y ∨ (a = [] ∧ b.head? = some y) := by
  cases a <;> simp_all

theorem getLast?_append_right {α : Type} (a b : List α) (h : b ≠ []) :
    (a ++ b).getLast? = b.getLast? := by
  exact List.getLast?_append_of_ne_nil a h

theorem getLast?_some_ne_nil {α : Type} {l : List α} {x : α}
    (h : l.getLast? = some x) : l ≠ [] := by
  intro hn
  subst hn
  exact Option.noConfusion h

theorem skipWs_decomp (l : List Char) :
    ∃ w, l = w ++ skipWs l ∧ ∀ c ∈ w, isJsonWs c = true := by
  induction l with
  | nil => exact ⟨[], rfl, by simp⟩
  | cons c cs IH =>
    by_cases hws : isJsonWs c = true
    · obtain ⟨w, hw, hall⟩ := IH
      refine ⟨c :: w, ?_, ?_⟩
      · show c :: cs = c :: (w ++ skipWs (c :: cs))
        have hstep : skipWs (c :: cs) = skipWs cs := by
          simp only [skipWs, hws, if_true]
        rw [hstep, ← hw]
      · intro x hx
        rcases List.mem_cons.mp hx with hx | hx
        · subst hx; exact hws
        · exact hall x hx
    · refine ⟨[], ?_, by simp⟩
      show c :: cs = skipWs (c :: cs)
      unfold skipWs
      rw [if_neg hws]

theorem dropWhile_append_all {p : Char → Bool} (w l : List Char)
    (h : ∀ c ∈ w, p c = true) : (w ++ l).dropWhile p = l.dropWhile p := by
  induction w with
  | nil => rfl
  | cons c cs IH =>
    show ((c :: cs) ++ l).dropWhile p = _
    rw [List.cons_append, List.dropWhile_cons, if_pos (h c (by simp))]
    exact IH (fun x hx => h x (by simp [hx]))

theorem dropWhile_of_head {p : Char → Bool} (l : List Char)
    (h : ∀ y, l.head? = some y → p y = false) : l.dropWhile p = l := by
  cases l with
  | nil => rfl
  | cons c cs =>
    rw [List.dropWhile_cons, if_neg]
    rw [h c rfl]
    simp

/-! ### C6 — backtick-guard lemmas -/

theorem btGuarded_append {a b : List Char} (ha : btGuarded a) (hb : btGuarded b) :
    btGuarded (a ++ b) := by
  intro pre post heq
  rcases List.append_eq_append_iff.mp heq.symm with ⟨k, hk1, hk2⟩ | ⟨k, hk1, hk2⟩
  · -- a = pre ++ k, btC :: post = k ++ b
    rcases k with _ | ⟨x, k'⟩
    · -- backtick starts b
      obtain ⟨pre2, x, hx, _⟩ := hb [] post (by simpa using hk2.symm)
      exact absurd hx.symm (by simp)
    · have hx : x = btC := by
        rw [List.cons_append] at hk2
        injection hk2 with h1 _
        exact h1.symm
      subst hx
      exact ha pre k' (by rw [hk1])
  · -- pre = a ++ k, b = k ++ btC :: post
    obtain ⟨pre2, y, hy, hyne⟩ := hb k post hk2
    exact ⟨a ++ pre2, y, by rw [hk1, hy, List.append_assoc], hyne⟩

theorem btGuarded_of_no_bt {l : List Char} (h : ∀ c ∈ l, c ≠ btC) : btGuarded l := by
  intro pre post heq
  exact absurd rfl (h btC (by rw [heq]; simp))

theorem btGuarded_of_no_nl_head {l : List Char} (h : ∀ c ∈ l, c ≠ '\n')
    (hh : ∀ y, l.head? = some y → y ≠ btC) : btGuarded l := by
  intro pre post heq
  rcases List.eq_nil_or_concat pre with hpre | ⟨pre2, x, hpre⟩
  · subst hpre
    exact absurd rfl (hh btC (by rw [heq]; rfl))
  · subst hpre
    refine ⟨pre2, x, by simp, ?_⟩
    exact h x (by rw [heq]; simp)

theorem after_nl_not_bt {P : List Char} (hbt : btGuarded P) :
    ∀ a b, P = a ++ '\n' :: b → ∀ y, b.head? = some y → y ≠ btC := by
  intro a b heq y hy hc
  subst hc
  rcases b with _ | ⟨b0, bt'⟩
  · exact Option.noConfusion hy
  · have hb0 : b0 = btC := by simpa using hy
    subst hb0
    obtain ⟨pre2, x, hx, hxne⟩ := hbt (a ++ ['\n']) bt' (by
      rw [heq]; simp)
    have hlast : x = '\n' := by
      have h1 : (a ++ ['\n']).getLast? = some '\n' := by
        rw [getLast?_append_right a ['\n'] (by simp)]
        rfl
      rw [hx, getLast?_append_right pre2 [x] (by simp)] at h1
      simpa using h1
    exact hxne hlast

/-! ### C6 — character bounds and last-element helpers -/

theorem digit_ge32 {c : Char} (h : c.isDigit = true) : 32 ≤ c.toNat := by
  simp [Char.isDigit] at h
  obtain ⟨h1, _⟩ := h
  have h2 : (48 : Nat) ≤ c.val.toNat := h1
  show 32 ≤ c.val.toNat
  omega

theorem hex_ge32 {c : Char} (h : isHexDigit c = true) : 32 ≤ c.toNat := by
  simp only [isHexDigit, Bool.or_eq_true, Bool.and_eq_true, decide_eq_true_eq] at h
  rcases h with (hd | ⟨h1, _⟩) | ⟨h1, _⟩
  · exact digit_ge32 hd
  · have h2 : (97 : Nat) ≤ c.val.toNat := h1
    show 32 ≤ c.val.toNat
    omega
  · have h2 : (65 : Nat) ≤ c.val.toNat := h1
    show 32 ≤ c.val.toNat
    omega

theorem esc_ge32 {c : Char} (h : escChars.contains c = true) : 32 ≤ c.toNat := by
  have hm : c ∈ escChars := List.elem_iff.mp h
  simp only [escChars, List.mem_cons, List.not_mem_nil, or_false] at hm
  rcases hm with h | h | h | h | h | h | h | h <;> subst h <;> decide

theorem digit_isNumChar {c : Char} (h : c.isDigit = true) : isNumChar c = true := by
  simp [isNumChar, h]

theorem getLast?_mem_self {α : Type} : ∀ {l : List α} {a : α}, l.getLast? = some a → a ∈ l
  | [], _, h => Option.noConfusion h
  | [x], a, h => by
    simp only [List.getLast?_singleton, Option.some.injEq] at h
    simp [h]
  | x :: y :: l, a, h => by
    rw [List.getLast?_cons_cons] at h
    exact List.mem_cons_of_mem x (getLast?_mem_self h)

theorem getLast?_exists {α : Type} {l : List α} (h : l ≠ []) : ∃ d, l.getLast? = some d := by
  rcases hd : l.getLast? with _ | d
  · exact absurd (List.getLast?_eq_none_iff.mp hd) h
  · exact ⟨d, rfl⟩

/-! ### C6 — string-body parser specification -/

theorem parseStrBody_spec : ∀ n cs body rest, cs.length ≤ n →
    parseStrBody cs = some (body, rest) →
    cs = body ++ qtC :: rest ∧ ∀ ch ∈ body, 32 ≤ ch.toNat := by
  intro n
  induction n with
  | zero =>
    intro cs body rest hlen h
    rcases cs with _ | ⟨c, cs⟩
    · exact Option.noConfusion h
    · simp at hlen
  | succ n IH =>
    intro cs body rest hlen h
    rcases cs with _ | ⟨c, cs⟩
    · exact Option.noConfusion h
    · unfold parseStrBody at h
      split at h
      · rename_i hq
        simp only [Option.some.injEq, Prod.mk.injEq] at h
        obtain ⟨hb, hr⟩ := h
        subst hq
        subst hb
        subst hr
        exact ⟨rfl, by simp⟩
      · rename_i hq
        split at h
        · rename_i hbs
          split at h
          · exact Option.noConfusion h
          · rename_i e cs2
            split at h
            · rename_i hu
              split at h
              · rename_i x1 x2 x3 x4 cs3
                split at h
                · rename_i hhex
                  split at h
                  · rename_i p hps
                    simp only [Option.some.injEq, Prod.mk.injEq] at h
                    obtain ⟨hb, hr⟩ := h
                    obtain ⟨hcs3, hch⟩ := IH cs3 p.1 p.2
                      (by simp only [List.length_cons] at hlen; omega) hps
                    subst hbs
                    subst hu
                    subst hb
                    subst hr
                    constructor
                    · rw [hcs3]
                      simp
                    · intro ch hch2
                      simp only [Bool.and_eq_true] at hhex
                      obtain ⟨⟨⟨hx1, hx2⟩, hx3⟩, hx4⟩ := hhex
                      simp only [List.mem_cons] at hch2
                      rcases hch2 with h | h | h | h | h | h | h
                      · subst h; decide
                      · subst h; decide
                      · subst h; exact hex_ge32 hx1
                      · subst h; exact hex_ge32 hx2
                      · subst h; exact hex_ge32 hx3
                      · subst h; exact hex_ge32 hx4
                      · exact hch ch h
                  · exact Option.noConfusion h
                · exact Option.noConfusion h
              · exact Option.noConfusion h
            · rename_i hu
              split at h
              · rename_i hesc
                split at h
                · rename_i p hps
                  simp only [Option.some.injEq, Prod.mk.injEq] at h
                  obtain ⟨hb, hr⟩ := h
                  obtain ⟨hcs2, hch⟩ := IH cs2 p.1 p.2
                    (by simp only [List.length_cons] at hlen; omega) hps
                  subst hbs
                  subst hb
                  subst hr
                  constructor
                  · rw [hcs2]
                    simp
                  · intro ch hch2
                    simp only [List.mem_cons] at hch2
                    rcases hch2 with h | h | h
                    · subst h; decide
                    · subst h; exact esc_ge32 hesc
                    · exact hch ch h
                · exact Option.noConfusion h
              · exact Option.noConfusion h
        · rename_i hbs
          split at h
          · exact Option.noConfusion h
          · rename_i hlt
            split at h
            · rename_i p hps
              simp only [Option.some.injEq, Prod.mk.injEq] at h
              obtain ⟨hb, hr⟩ := h
              obtain ⟨hcs, hch⟩ := IH cs p.1 p.2
                (by simp only [List.length_cons] at hlen; omega) hps
              subst hb
              subst hr
              constructor
              · rw [hcs]
                simp
              · intro ch hch2
                simp only [List.mem_cons] at hch2
                rcases hch2 with h | h
                · subst h; omega
                · exact hch ch h
            · exact Option.noConfusion h

/-! ### C6 — number-lexeme specifications -/

theorem parseIntPart_spec {cs ip rest : List Char}
    (h : parseIntPart cs = some (ip, rest)) :
    cs = ip ++ rest ∧ ip ≠ [] ∧ ∀ c ∈ ip, c.isDigit = true := by
  unfold parseIntPart at h
  split at h
  · exact Option.noConfusion h
  · rename_i c cs2
    split at h
    · rename_i h0
      simp only [Option.some.injEq, Prod.mk.injEq] at h
      obtain ⟨hb, hr⟩ := h
      subst h0
      subst hb
      subst hr
      refine ⟨rfl, by simp, ?_⟩
      intro x hx
      simp only [List.mem_singleton] at hx
      subst hx
      decide
    · split at h
      · rename_i h0 hdig
        simp only [List.span_eq_take_drop, Option.some.injEq, Prod.mk.injEq] at h
        obtain ⟨hb, hr⟩ := h
        subst hb
        subst hr
        refine ⟨?_, by simp, ?_⟩
        · rw [List.cons_append, List.takeWhile_append_dropWhile]
        · intro x hx
          rcases List.mem_cons.mp hx with hx | hx
          · subst hx; exact hdig
          · exact List.mem_takeWhile_imp hx
      · exact Option.noConfusion h

theorem parseFracPart_spec (cs : List Char) :
    cs = (parseFracPart cs).1 ++ (parseFracPart cs).2 ∧
    ((parseFracPart cs).1 = [] ∨
      ((∀ c ∈ (parseFracPart cs).1, isNumChar c = true) ∧
        ∃ d, (parseFracPart cs).1.getLast? = some d ∧ d.isDigit = true)) := by
  rcases cs with _ | ⟨c, rest⟩
  · exact ⟨rfl, Or.inl rfl⟩
  · by_cases hdot : c = '.'
    · subst hdot
      rcases htw : rest.takeWhile Char.isDigit with _ | ⟨d0, tw⟩
      · have hres : parseFracPart ('.' :: rest) = ([], '.' :: rest) := by
          simp [parseFracPart, List.span_eq_take_drop, htw]
        rw [hres]
        exact ⟨rfl, Or.inl rfl⟩
      · have hres : parseFracPart ('.' :: rest) =
            ('.' :: (d0 :: tw), rest.dropWhile Char.isDigit) := by
          simp [parseFracPart, List.span_eq_take_drop, htw]
        rw [hres]
        constructor
        · show '.' :: rest = ('.' :: (d0 :: tw)) ++ rest.dropWhile Char.isDigit
          rw [← htw, List.cons_append, List.takeWhile_append_dropWhile]
        · right
          constructor
          · intro x hx
            rcases List.mem_cons.mp hx with hx | hx
            · subst hx; decide
            · have hx2 : x ∈ rest.takeWhile Char.isDigit := by rw [htw]; exact hx
              exact digit_isNumChar (List.mem_takeWhile_imp hx2)
          · obtain ⟨d, hd⟩ := getLast?_exists (l := d0 :: tw) (by simp)
            refine ⟨d, ?_, ?_⟩
            · rw [show ('.' :: (d0 :: tw)) = ['.'] ++ (d0 :: tw) from rfl,
                getLast?_append_right _ _ (by simp)]
              exact hd
            · have hd2 : d ∈ rest.takeWhile Char.isDigit := by
                rw [htw]; exact getLast?_mem_self hd
              exact List.mem_takeWhile_imp hd2
    · have hres : parseFracPart (c :: rest) = ([], c :: rest) := by
        simp [parseFracPart, hdot]
      rw [hres]
      exact ⟨rfl, Or.inl rfl⟩

theorem parseExpPart_spec (cs : List Char) :
    cs = (parseExpPart cs).1 ++ (parseExpPart cs).2 ∧
    ((parseExpPart cs).1 = [] ∨
      ((∀ c ∈ (parseExpPart cs).1, isNumChar c = true) ∧
        ∃ d, (parseExpPart cs).1.getLast? = some d ∧ d.isDigit = true)) := by
  rcases cs with _ | ⟨e, rest⟩
  · exact ⟨rfl, Or.inl rfl⟩
  · by_cases he : e = 'e' ∨ e = 'E'
    · rcases rest with _ | ⟨s, rest2⟩
      · have hres : parseExpPart [e] = ([], [e]) := by
          simp [parseExpPart, he]
        rw [hres]
        exact ⟨rfl, Or.inl rfl⟩
      · by_cases hs : s = '+' ∨ s = '-'
        · rcases htw : rest2.takeWhile Char.isDigit with _ | ⟨d0, tw⟩
          · have hres : parseExpPart (e :: s :: rest2) = ([], e :: s :: rest2) := by
              simp [parseExpPart, he, hs, List.span_eq_take_drop, htw]
            rw [hres]
            exact ⟨rfl, Or.inl rfl⟩
          · have hres : parseExpPart (e :: s :: rest2) =
                (e :: s :: (d0 :: tw), rest2.dropWhile Char.isDigit) := by
              simp [parseExpPart, he, hs, List.span_eq_take_drop, htw]
            rw [hres]
            constructor
            · show e :: s :: rest2 = (e :: s :: (d0 :: tw)) ++ rest2.dropWhile Char.isDigit
              rw [show (e :: s :: (d0 :: tw)) ++ rest2.dropWhile Char.isDigit =
                  e :: s :: ((d0 :: tw) ++ rest2.dropWhile Char.isDigit) from rfl,
                ← htw, List.takeWhile_append_dropWhile]
            · right
              constructor
              · intro x hx
                rcases List.mem_cons.mp hx with hx | hx
                · subst hx
                  rcases he with he | he <;> subst he <;> decide
                · rcases List.mem_cons.mp hx with hx | hx
                  · subst hx
                    rcases hs with hs | hs <;> subst hs <;> decide
                  · have hx2 : x ∈ rest2.takeWhile Char.isDigit := by rw [htw]; exact hx
                    exact digit_isNumChar (List.mem_takeWhile_imp hx2)
              · obtain ⟨d, hd⟩ := getLast?_exists (l := d0 :: tw) (by simp)
                refine ⟨d, ?_, ?_⟩
                · rw [show (e :: s :: (d0 :: tw)) = [e, s] ++ (d0 :: tw) from rfl,
                    getLast?_append_right _ _ (by simp)]
                  exact hd
                · have hd2 : d ∈ rest2.takeWhile Char.isDigit := by
                    rw [htw]; exact getLast?_mem_self hd
                  exact List.mem_takeWhile_imp hd2
        · rcases htw : (s :: rest2).takeWhile Char.isDigit with _ | ⟨d0, tw⟩
          · have hres : parseExpPart (e :: s :: rest2) = ([], e :: s :: rest2) := by
              simp [parseExpPart, he, hs, List.span_eq_take_drop, htw]
            rw [hres]
            exact ⟨rfl, Or.inl rfl⟩
          · have hres : parseExpPart (e :: s :: rest2) =
                (e :: (d0 :: tw), (s :: rest2).dropWhile Char.isDigit) := by
              simp [parseExpPart, he, hs, List.span_eq_take_drop, htw]
            rw [hres]
            constructor
            · show e :: s :: rest2 = (e :: (d0 :: tw)) ++ (s :: rest2).dropWhile Char.isDigit
              rw [show (e :: (d0 :: tw)) ++ (s :: rest2).dropWhile Char.isDigit =
                  e :: ((d0 :: tw) ++ (s :: rest2).dropWhile Char.isDigit) from rfl,
                ← htw, List.takeWhile_append_dropWhile]
            · right
              constructor
              · intro x hx
                rcases List.mem_cons.mp hx with hx | hx
                · subst hx
                  rcases he with he | he <;> subst he <;> decide
                · have hx2 : x ∈ (s :: rest2).takeWhile Char.isDigit := by
                    rw [htw]; exact hx
                  exact digit_isNumChar (List.mem_takeWhile_imp hx2)
              · obtain ⟨d, hd⟩ := getLast?_exists (l := d0 :: tw) (by simp)
                refine ⟨d, ?_, ?_⟩
                · rw [show (e :: (d0 :: tw)) = [e] ++ (d0 :: tw) from rfl,
                    getLast?_append_right _ _ (by simp)]
                  exact hd
                · have hd2 : d ∈ (s :: rest2).takeWhile Char.isDigit := by
                    rw [htw]; exact getLast?_mem_self hd
                  exact List.mem_takeWhile_imp hd2
    · have hres : parseExpPart (e :: rest) = ([], e :: rest) := by
        simp [parseExpPart, he]
      rw [hres]
      exact ⟨rfl, Or.inl rfl⟩

theorem num_last {X ip1 fp1 ep1 : List Char}
    (hipne : ip1 ≠ []) (hipd : ∀ c ∈ ip1, c.isDigit = true)
    (hf : fp1 = [] ∨ ((∀ c ∈ fp1, isNumChar c = true) ∧
      ∃ d, fp1.getLast? = some d ∧ d.isDigit = true))
    (he : ep1 = [] ∨ ((∀ c ∈ ep1, isNumChar c = true) ∧
      ∃ d, ep1.getLast? = some d ∧ d.isDigit = true)) :
    ∃ d, (X ++ ip1 ++ fp1 ++ ep1).getLast? = some d ∧ d.isDigit = true := by
  rcases he with he0 | ⟨_, d, hd, hdd⟩
  · subst he0
    rw [List.append_nil]
    rcases hf with hf0 | ⟨_, d, hd, hdd⟩
    · subst hf0
      rw [List.append_nil]
      obtain ⟨d, hd⟩ := getLast?_exists hipne
      exact ⟨d, by rw [getLast?_append_right _ _ hipne]; exact hd,
        hipd d (getLast?_mem_self hd)⟩
    · exact ⟨d, by rw [getLast?_append_right _ _ (getLast?_some_ne_nil hd)]; exact hd, hdd⟩
  · exact ⟨d, by rw [getLast?_append_right _ _ (getLast?_some_ne_nil hd)]; exact hd, hdd⟩

theorem parseNum_spec {cs lex rest : List Char} (h : parseNum cs = some (lex, rest)) :
    cs = lex ++ rest ∧
    (∃ h0, lex.head? = some h0 ∧ isValHead h0 = true) ∧
    (∃ d, lex.getLast? = some d ∧ d.isDigit = true) ∧
    (∀ c ∈ lex, isNumChar c = true) := by
  rcases cs with _ | ⟨c, rest0⟩
  · exact Option.noConfusion h
  · unfold parseNum at h
    dsimp only at h
    by_cases hneg : c = '-'
    · subst hneg
      rw [show (if ('-' : Char) = '-' then ((['-'] : List Char), rest0)
          else ([], '-' :: rest0)) = (['-'], rest0) from if_pos rfl] at h
      dsimp only at h
      rcases hip : parseIntPart rest0 with _ | ⟨ip1, ip2⟩
      · rw [hip] at h
        exact Option.noConfusion h
      · rw [hip] at h
        dsimp only at h
        rcases hfp : parseFracPart ip2 with ⟨fp1, fp2⟩
        rw [hfp] at h
        dsimp only at h
        rcases hep : parseExpPart fp2 with ⟨ep1, ep2⟩
        rw [hep] at h
        dsimp only at h
        simp only [Option.some.injEq, Prod.mk.injEq] at h
        obtain ⟨hb, hr⟩ := h
        obtain ⟨hieq, hipne, hipd⟩ := parseIntPart_spec hip
        have hf := parseFracPart_spec ip2
        simp only [hfp] at hf
        have hx := parseExpPart_spec fp2
        simp only [hep] at hx
        obtain ⟨hfeq, hfalt⟩ := hf
        obtain ⟨heeq, healt⟩ := hx
        subst hb
        subst hr
        have hfchars : ∀ x ∈ fp1, isNumChar x = true := by
          rcases hfalt with h0 | ⟨hc, _⟩
          · subst h0; intro x hx2; exact absurd hx2 (List.not_mem_nil x)
          · exact hc
        have hechars : ∀ x ∈ ep1, isNumChar x = true := by
          rcases healt with h0 | ⟨hc, _⟩
          · subst h0; intro x hx2; exact absurd hx2 (List.not_mem_nil x)
          · exact hc
        refine ⟨?_, ?_, ?_, ?_⟩
        · rw [hieq, hfeq, heeq]
          simp
        · exact ⟨'-', by simp, by decide⟩
        · exact num_last hipne hipd hfalt healt
        · intro x hx2
          simp only [List.append_assoc, List.mem_append, List.mem_singleton] at hx2
          rcases hx2 with hx2 | hx2 | hx2 | hx2
          · subst hx2; decide
          · exact digit_isNumChar (hipd x hx2)
          · exact hfchars x hx2
          · exact hechars x hx2
    · rw [if_neg hneg] at h
      dsimp only at h
      rcases hip : parseIntPart (c :: rest0) with _ | ⟨ip1, ip2⟩
      · rw [hip] at h
        exact Option.noConfusion h
      · rw [hip] at h
        dsimp only at h
        rcases hfp : parseFracPart ip2 with ⟨fp1, fp2⟩
        rw [hfp] at h
        dsimp only at h
        rcases hep : parseExpPart fp2 with ⟨ep1, ep2⟩
        rw [hep] at h
        dsimp only at h
        simp only [Option.some.injEq, Prod.mk.injEq] at h
        obtain ⟨hb, hr⟩ := h
        obtain ⟨hieq, hipne, hipd⟩ := parseIntPart_spec hip
        have hf := parseFracPart_spec ip2
        simp only [hfp] at hf
        have hx := parseExpPart_spec fp2
        simp only [hep] at hx
        obtain ⟨hfeq, hfalt⟩ := hf
        obtain ⟨heeq, healt⟩ := hx
        subst hb
        subst hr
        have hfchars : ∀ x ∈ fp1, isNumChar x = true := by
          rcases hfalt with h0 | ⟨hc, _⟩
          · subst h0; intro x hx2; exact absurd hx2 (List.not_mem_nil x)
          · exact hc
        have hechars : ∀ x ∈ ep1, isNumChar x = true := by
          rcases healt with h0 | ⟨hc, _⟩
          · subst h0; intro x hx2; exact absurd hx2 (List.not_mem_nil x)
          · exact hc
        rcases ip1 with _ | ⟨i0, ip1'⟩
        · exact absurd rfl hipne
        refine ⟨?_, ?_, ?_, ?_⟩
        · rw [hieq, hfeq, heeq]
          simp
        · refine ⟨i0, by simp, ?_⟩
          exact digit_isValHead (hipd i0 (by simp))
        · exact num_last hipne hipd hfalt healt
        · intro x hx2
          simp only [List.nil_append, List.append_assoc, List.mem_append,
            List.mem_cons] at hx2
          rcases hx2 with (hx2 | hx2) | hx2 | hx2
          · subst hx2
            exact digit_isNumChar (hipd x (by simp))
          · exact digit_isNumChar (hipd x (by simp [hx2]))
          · exact hfchars x hx2
          · exact hechars x hx2

/-! ### C6 — building the Good predicates for parsed chunks -/

theorem goodVal_delim {x y : Char} {w : List Char} (hx : isValHead x = true)
    (hy : isValLast y = true) (hxb : x ≠ btC) (hyb : y ≠ btC)
    (hw : ∀ c ∈ w, isJsonWs c = true) : GoodVal (x :: w ++ [y]) := by
  refine ⟨⟨x, by simp, hx⟩, ⟨y, ?_, hy⟩, ?_⟩
  · rw [show x :: w ++ [y] = (x :: w) ++ [y] from rfl,
      getLast?_append_right _ _ (by simp)]
    rfl
  · apply btGuarded_of_no_bt
    intro c hc
    rcases List.mem_cons.mp hc with hc | hc
    · subst hc; exact hxb
    · rcases List.mem_append.mp hc with hc | hc
      · exact jsonWs_ne_bt (hw c hc)
      · simp only [List.mem_singleton] at hc
        subst hc
        exact hyb

theorem goodVal_wrap {x lastc : Char} {w sub : List Char} (hx : isValHead x = true)
    (hxb : x ≠ btC) (hw : ∀ c ∈ w, isJsonWs c = true)
    (hsub_last : sub.getLast? = some lastc) (hlast : isValLast lastc = true)
    (hsub_bt : btGuarded sub) : GoodVal ((x :: w) ++ sub) := by
  refine ⟨⟨x, by simp, hx⟩, ⟨lastc, ?_, hlast⟩, ?_⟩
  · rw [getLast?_append_right _ _ (getLast?_some_ne_nil hsub_last)]
    exact hsub_last
  · apply btGuarded_append _ hsub_bt
    apply btGuarded_of_no_bt
    intro c hc
    rcases List.mem_cons.mp hc with hc | hc
    · subst hc; exact hxb
    · exact jsonWs_ne_bt (hw c hc)

theorem goodVal_str {body : List Char} (hch : ∀ ch ∈ body, 32 ≤ ch.toNat) :
    GoodVal (qtC :: body ++ [qtC]) := by
  refine ⟨⟨qtC, by simp, by decide⟩, ⟨qtC, ?_, by decide⟩, ?_⟩
  · rw [show qtC :: body ++ [qtC] = (qtC :: body) ++ [qtC] from rfl,
      getLast?_append_right _ _ (by simp)]
    rfl
  · apply btGuarded_of_no_nl_head
    · intro c hc
      rcases List.mem_cons.mp hc with hc | hc
      · subst hc; decide
      · rcases List.mem_append.mp hc with hc | hc
        · exact ge32_ne_nl (hch c hc)
        · simp only [List.mem_singleton] at hc
          subst hc
          decide
    · intro y hy
      injection hy with hy
      subst hy
      decide

theorem goodVal_true : GoodVal ['t', 'r', 'u', 'e'] :=
  ⟨⟨'t', rfl, by decide⟩, ⟨'e', rfl, by decide⟩, btGuarded_of_no_bt (by decide)⟩

theorem goodVal_false : GoodVal ['f', 'a', 'l', 's', 'e'] :=
  ⟨⟨'f', rfl, by decide⟩, ⟨'e', rfl, by decide⟩, btGuarded_of_no_bt (by decide)⟩

theorem goodVal_null : GoodVal ['n', 'u', 'l', 'l'] :=
  ⟨⟨'n', rfl, by decide⟩, ⟨'l', rfl, by decide⟩, btGuarded_of_no_bt (by decide)⟩

theorem goodVal_num {lex : List Char}
    (hh : ∃ h0, lex.head? = some h0 ∧ isValHead h0 = true)
    (hl : ∃ d, lex.getLast? = some d ∧ d.isDigit = true)
    (hc : ∀ c ∈ lex, isNumChar c = true) : GoodVal lex := by
  obtain ⟨h0, hh1, hh2⟩ := hh
  obtain ⟨d, hl1, hl2⟩ := hl
  exact ⟨⟨h0, hh1, hh2⟩, ⟨d, hl1, digit_isValLast hl2⟩,
    btGuarded_of_no_bt (fun c hcm => numChar_ne_bt (hc c hcm))⟩

theorem btGuarded_mid {w1 w2 : List Char} {p : Char}
    (h1 : ∀ c ∈ w1, isJsonWs c = true) (h2 : ∀ c ∈ w2, isJsonWs c = true)
    (hp : p ≠ btC) : btGuarded (w1 ++ p :: w2) := by
  apply btGuarded_of_no_bt
  intro c hc
  rcases List.mem_append.mp hc with hc | hc
  · exact jsonWs_ne_bt (h1 c hc)
  · rcases List.mem_cons.mp hc with hc | hc
    · subst hc; exact hp
    · exact jsonWs_ne_bt (h2 c hc)

theorem btGuarded_ws_tail {w : List Char} {p : Char}
    (h1 : ∀ c ∈ w, isJsonWs c = true) (hp : p ≠ btC) : btGuarded (w ++ [p]) := by
  apply btGuarded_of_no_bt
  intro c hc
  rcases List.mem_append.mp hc with hc | hc
  · exact jsonWs_ne_bt (h1 c hc)
  · simp only [List.mem_singleton] at hc
    subst hc
    exact hp

/-! ### C6 — consumed-input shape of the fuel-indexed JSON parsers -/

theorem parseValue_succ (f : Nat) (cs : List Char) :
    parseValue (f + 1) cs = (match cs with
    | [] => none
    | c :: rest =>
      if c = obC then
        match skipWs rest with
        | [] => none
        | c1 :: r1 =>
          if c1 = cbC then some (Json.obj [], r1)
          else
            match parseMembers f (c1 :: r1) with
            | some p => some (Json.obj p.1, p.2)
            | none => none
      else if c = '[' then
        match skipWs rest with
        | [] => none
        | c1 :: r1 =>
          if c1 = ']' then some (Json.arr [], r1)
          else
            match parseItems f (c1 :: r1) with
            | some p => some (Json.arr p.1, p.2)
            | none => none
      else if c = qtC then
        match parseStrBody rest with
        | some p => some (Json.str p.1, p.2)
        | none => none
      else if c = 't' then
        match rest with
        | 'r' :: 'u' :: 'e' :: r => some (Json.bool true, r)
        | _ => none
      else if c = 'f' then
        match rest with
        | 'a' :: 'l' :: 's' :: 'e' :: r => some (Json.bool false, r)
        | _ => none
      else if c = 'n' then
        match rest with
        | 'u' :: 'l' :: 'l' :: r => some (Json.null, r)
        | _ => none
      else if c = '-' ∨ c.isDigit then
        match parseNum cs with
        | some p => some (Json.num p.1, p.2)
        | none => none
      else none) := rfl

theorem parseMembers_succ (f : Nat) (cs : List Char) :
    parseMembers (f + 1) cs = (match cs with
    | c0 :: cs1 =>
      if c0 = qtC then
        match parseStrBody cs1 with
        | some kp =>
          match skipWs kp.2 with
          | c2 :: r3 =>
            if c2 = ':' then
              match parseValue f (skipWs r3) with
              | some vp =>
                match skipWs vp.2 with
                | c3 :: r6 =>
                  if c3 = ',' then
                    match parseMembers f (skipWs r6) with
                    | some mp => some ((kp.1, vp.1) :: mp.1, mp.2)
                    | none => none
                  else if c3 = cbC then some ([(kp.1, vp.1)], r6)
                  else none
                | [] => none
              | none => none
            else none
          | [] => none
        | none => none
      else none
    | [] => none) := rfl

theorem parseItems_succ (f : Nat) (cs : List Char) :
    parseItems (f + 1) cs = (match parseValue f cs with
    | some vp =>
      match skipWs vp.2 with
      | c1 :: r3 =>
        if c1 = ',' then
          match parseItems f (skipWs r3) with
          | some ip => some (vp.1 :: ip.1, ip.2)
          | none => none
        else if c1 = ']' then some ([vp.1], r3)
        else none
      | [] => none
    | none => none) := rfl

set_option maxHeartbeats 2000000 in
theorem parse_chunks : ∀ f,
    (∀ cs j rest, parseValue f cs = some (j, rest) →
      ∃ c, cs = c ++ rest ∧ GoodVal c) ∧
    (∀ cs ms rest, parseMembers f cs = some (ms, rest) →
      ∃ c, cs = c ++ rest ∧ GoodMem c) ∧
    (∀ cs it rest, parseItems f cs = some (it, rest) →
      ∃ c, cs = c ++ rest ∧ GoodItem c) := by
  intro f
  induction f with
  | zero =>
    refine ⟨fun cs a rest h => ?_, fun cs a rest h => ?_, fun cs a rest h => ?_⟩
    · rw [show parseValue 0 cs = none from rfl] at h
      exact Option.noConfusion h
    · rw [show parseMembers 0 cs = none from rfl] at h
      exact Option.noConfusion h
    · rw [show parseItems 0 cs = none from rfl] at h
      exact Option.noConfusion h
  | succ f IH =>
    obtain ⟨IHv, IHm, IHi⟩ := IH
    refine ⟨?_, ?_, ?_⟩
    · intro cs j rest h
      rw [parseValue_succ] at h
      split at h
      · exact Option.noConfusion h
      · rename_i c rest0
        split at h
        · -- c = obC
          rename_i hobc
          split at h
          · exact Option.noConfusion h
          · rename_i c1 r1 hsw
            split at h
            · -- empty object
              rename_i hc1
              simp only [Option.some.injEq, Prod.mk.injEq] at h
              obtain ⟨hj, hr⟩ := h
              subst hj
              subst hr
              obtain ⟨w, hw, hwall⟩ := skipWs_decomp rest0
              rw [hsw] at hw
              subst hobc
              subst hc1
              refine ⟨obC :: w ++ [cbC], ?_, ?_⟩
              · rw [hw]
                simp
              · exact goodVal_delim (by decide) (by decide) (by decide) (by decide) hwall
            · rename_i hc1
              split at h
              · rename_i p hpm
                simp only [Option.some.injEq, Prod.mk.injEq] at h
                obtain ⟨hj, hr⟩ := h
                subst hj
                subst hr
                obtain ⟨cm, hcm, hgm⟩ := IHm (c1 :: r1) p.1 p.2 hpm
                obtain ⟨w, hw, hwall⟩ := skipWs_decomp rest0
                rw [hsw] at hw
                subst hobc
                refine ⟨(obC :: w) ++ cm, ?_, ?_⟩
                · rw [hw, hcm]
                  simp
                · exact goodVal_wrap (by decide) (by decide) hwall hgm.1 (by decide) hgm.2
              · exact Option.noConfusion h
        · rename_i hobc
          split at h
          · -- c = '['
            rename_i hbrk
            split at h
            · exact Option.noConfusion h
            · rename_i c1 r1 hsw
              split at h
              · -- empty array
                rename_i hc1
                simp only [Option.some.injEq, Prod.mk.injEq] at h
                obtain ⟨hj, hr⟩ := h
                subst hj
                subst hr
                obtain ⟨w, hw, hwall⟩ := skipWs_decomp rest0
                rw [hsw] at hw
                subst hbrk
                subst hc1
                refine ⟨'[' :: w ++ [']'], ?_, ?_⟩
                · rw [hw]
                  simp
                · exact goodVal_delim (by decide) (by decide) (by decide) (by decide) hwall
              · rename_i hc1
                split at h
                · rename_i p hpi
                  simp only [Option.some.injEq, Prod.mk.injEq] at h
                  obtain ⟨hj, hr⟩ := h
                  subst hj
                  subst hr
                  obtain ⟨ci, hci, hgi⟩ := IHi (c1 :: r1) p.1 p.2 hpi
                  obtain ⟨w, hw, hwall⟩ := skipWs_decomp rest0
                  rw [hsw] at hw
                  subst hbrk
                  refine ⟨('[' :: w) ++ ci, ?_, ?_⟩
                  · rw [hw, hci]
                    simp
                  · exact goodVal_wrap (by decide) (by decide) hwall hgi.1 (by decide) hgi.2
                · exact Option.noConfusion h
          · rename_i hbrk
            split at h
            · -- c = qtC
              rename_i hqt
              split at h
              · rename_i p hps
                simp only [Option.some.injEq, Prod.mk.injEq] at h
                obtain ⟨hj, hr⟩ := h
                subst hj
                subst hr
                obtain ⟨hre, hch⟩ := parseStrBody_spec rest0.length rest0 p.1 p.2 le_rfl hps
                subst hqt
                refine ⟨qtC :: p.1 ++ [qtC], ?_, goodVal_str hch⟩
                rw [hre]
                simp
              · exact Option.noConfusion h
            · rename_i hqt
              split at h
              · -- c = 't'
                rename_i hct
                split at h
                · rename_i r
                  simp only [Option.some.injEq, Prod.mk.injEq] at h
                  obtain ⟨hj, hr⟩ := h
                  subst hj
                  subst hr
                  subst hct
                  exact ⟨['t', 'r', 'u', 'e'], rfl, goodVal_true⟩
                all_goals exact Option.noConfusion h
              · rename_i hct
                split at h
                · -- c = 'f'
                  rename_i hcf
                  split at h
                  · rename_i r
                    simp only [Option.some.injEq, Prod.mk.injEq] at h
                    obtain ⟨hj, hr⟩ := h
                    subst hj
                    subst hr
                    subst hcf
                    exact ⟨['f', 'a', 'l', 's', 'e'], rfl, goodVal_false⟩
                  all_goals exact Option.noConfusion h
                · rename_i hcf
                  split at h
                  · -- c = 'n'
                    rename_i hcn
                    split at h
                    · rename_i r
                      simp only [Option.some.injEq, Prod.mk.injEq] at h
                      obtain ⟨hj, hr⟩ := h
                      subst hj
                      subst hr
                      subst hcn
                      exact ⟨['n', 'u', 'l', 'l'], rfl, goodVal_null⟩
                    all_goals exact Option.noConfusion h
                  · rename_i hcn
                    split at h
                    · -- number
                      rename_i hnum
                      split at h
                      · rename_i p hpn
                        simp only [Option.some.injEq, Prod.mk.injEq] at h
                        obtain ⟨hj, hr⟩ := h
                        subst hj
                        subst hr
                        obtain ⟨heq, hhd, hlast, hch⟩ := parseNum_spec hpn
                        exact ⟨p.1, heq, goodVal_num hhd hlast hch⟩
                      · exact Option.noConfusion h
                    · exact Option.noConfusion h
    · intro cs ms rest h
      rw [parseMembers_succ] at h
      split at h
      · rename_i c0 cs1
        split at h
        · -- c0 = qtC
          rename_i hq0
          split at h
          · rename_i kp hkp
            split at h
            · rename_i c2 r3 hsw1
              split at h
              · -- c2 = ':'
                rename_i hc2
                split at h
                · rename_i vp hvp
                  split at h
                  · rename_i c3 r6 hsw2
                    split at h
                    · -- c3 = ',' : recursive case
                      rename_i hc3
                      split at h
                      · rename_i mp hmp
                        simp only [Option.some.injEq, Prod.mk.injEq] at h
                        obtain ⟨hm, hr⟩ := h
                        subst hm
                        subst hr
                        obtain ⟨hk1, hkch⟩ :=
                          parseStrBody_spec cs1.length cs1 kp.1 kp.2 le_rfl hkp
                        obtain ⟨w1, hw1, hw1a⟩ := skipWs_decomp kp.2
                        rw [hsw1] at hw1
                        obtain ⟨cv, hcv, hgv⟩ := IHv (skipWs r3) vp.1 vp.2 hvp
                        obtain ⟨w2, hw2, hw2a⟩ := skipWs_decomp r3
                        obtain ⟨w3, hw3, hw3a⟩ := skipWs_decomp vp.2
                        rw [hsw2] at hw3
                        obtain ⟨cm, hcm, hgm⟩ := IHm (skipWs r6) mp.1 mp.2 hmp
                        obtain ⟨w4, hw4, hw4a⟩ := skipWs_decomp r6
                        subst hq0
                        subst hc2
                        subst hc3
                        refine ⟨((((qtC :: kp.1 ++ [qtC]) ++ (w1 ++ ':' :: w2)) ++ cv) ++
                          (w3 ++ ',' :: w4)) ++ cm, ?_, ?_, ?_⟩
                        · rw [hk1, hw1, hw2, hcv, hw3, hw4, hcm]
                          simp
                        · rw [getLast?_append_right _ _ (getLast?_some_ne_nil hgm.1)]
                          exact hgm.1
                        · exact btGuarded_append (btGuarded_append (btGuarded_append
                            (btGuarded_append (goodVal_str hkch).2.2
                              (btGuarded_mid hw1a hw2a (by decide))) hgv.2.2)
                            (btGuarded_mid hw3a hw4a (by decide))) hgm.2
                      · exact Option.noConfusion h
                    · rename_i hc3
                      split at h
                      · -- c3 = cbC : terminal case
                        rename_i hc3b
                        simp only [Option.some.injEq, Prod.mk.injEq] at h
                        obtain ⟨hm, hr⟩ := h
                        subst hm
                        subst hr
                        obtain ⟨hk1, hkch⟩ :=
                          parseStrBody_spec cs1.length cs1 kp.1 kp.2 le_rfl hkp
                        obtain ⟨w1, hw1, hw1a⟩ := skipWs_decomp kp.2
                        rw [hsw1] at hw1
                        obtain ⟨cv, hcv, hgv⟩ := IHv (skipWs r3) vp.1 vp.2 hvp
                        obtain ⟨w2, hw2, hw2a⟩ := skipWs_decomp r3
                        obtain ⟨w3, hw3, hw3a⟩ := skipWs_decomp vp.2
                        rw [hsw2] at hw3
                        subst hq0
                        subst hc2
                        subst hc3b
                        refine ⟨(((qtC :: kp.1 ++ [qtC]) ++ (w1 ++ ':' :: w2)) ++ cv) ++
                          (w3 ++ [cbC]), ?_, ?_, ?_⟩
                        · rw [hk1, hw1, hw2, hcv, hw3]
                          simp
                        · rw [getLast?_append_right _ _ (by simp),
                            getLast?_append_right _ _ (by simp)]
                          rfl
                        · exact btGuarded_append (btGuarded_append (btGuarded_append
                            (goodVal_str hkch).2.2 (btGuarded_mid hw1a hw2a (by decide)))
                            hgv.2.2) (btGuarded_ws_tail hw3a (by decide))
                      · exact Option.noConfusion h
                  · exact Option.noConfusion h
                · exact Option.noConfusion h
              · exact Option.noConfusion h
            · exact Option.noConfusion h
          · exact Option.noConfusion h
        · exact Option.noConfusion h
      · exact Option.noConfusion h
    · intro cs it rest h
      rw [parseItems_succ] at h
      split at h
      · rename_i vp hvp
        split at h
        · rename_i c1 r3 hsw
          split at h
          · -- c1 = ',' : recursive case
            rename_i hc1
            split at h
            · rename_i ip hpi
              simp only [Option.some.injEq, Prod.mk.injEq] at h
              obtain ⟨hi, hr⟩ := h
              subst hi
              subst hr
              obtain ⟨cv, hcv, hgv⟩ := IHv cs vp.1 vp.2 hvp
              obtain ⟨w1, hw1, hw1a⟩ := skipWs_decomp vp.2
              rw [hsw] at hw1
              obtain ⟨ci, hci, hgi⟩ := IHi (skipWs r3) ip.1 ip.2 hpi
              obtain ⟨w2, hw2, hw2a⟩ := skipWs_decomp r3
              subst hc1
              refine ⟨(cv ++ (w1 ++ ',' :: w2)) ++ ci, ?_, ?_, ?_⟩
              · rw [hcv, hw1, hw2, hci]
                simp
              · rw [getLast?_append_right _ _ (getLast?_some_ne_nil hgi.1)]
                exact hgi.1
              · exact btGuarded_append (btGuarded_append hgv.2.2
                  (btGuarded_mid hw1a hw2a (by decide))) hgi.2
            · exact Option.noConfusion h
          · rename_i hc1
            split at h
            · -- c1 = ']' : terminal case
              rename_i hc1b
              simp only [Option.some.injEq, Prod.mk.injEq] at h
              obtain ⟨hi, hr⟩ := h
              subst hi
              subst hr
              obtain ⟨cv, hcv, hgv⟩ := IHv cs vp.1 vp.2 hvp
              obtain ⟨w1, hw1, hw1a⟩ := skipWs_decomp vp.2
              rw [hsw] at hw1
              subst hc1b
              refine ⟨cv ++ (w1 ++ [']']), ?_, ?_, ?_⟩
              · rw [hcv, hw1]
                simp
              · rw [getLast?_append_right _ _ (by simp),
                  getLast?_append_right _ _ (by simp)]
                rfl
              · exact btGuarded_append hgv.2.2 (btGuarded_ws_tail hw1a (by decide))
            · exact Option.noConfusion h
        · exact Option.noConfusion h
      · exact Option.noConfusion h

/-! ### C6 — behavior of the embedded regex machinery -/

theorem matchWsNl_cons (c : Char) (rest : List Char) :
    matchWsNl (c :: rest) = (if isReWs c then
      match matchWsNl rest with
      | some r => some r
      | none => if c = '\n' then some rest else none
    else none) := rfl

theorem matchDollar_cons (c : Char) (rest : List Char) :
    matchDollar (c :: rest) = (if isReWs c then
      match matchDollar rest with
      | some r => some r
      | none => if c = '\n' then some (c :: rest) else none
    else none) := rfl

theorem sub1Aux_succ (f : Nat) (atStart : Bool) (cs : List Char) :
    sub1Aux (f + 1) atStart cs = (match (if atStart then matchFence cs else none) with
    | some rest => sub1Aux f true rest
    | none =>
      match cs with
      | [] => []
      | c :: rest => c :: sub1Aux f (c = '\n') rest) := rfl

theorem sub2Aux_succ (f : Nat) (cs : List Char) :
    sub2Aux (f + 1) cs = (match cs with
    | [] => []
    | c :: rest =>
      if c = '\n' then
        match matchClose rest with
        | some rem => sub2Aux f rem
        | none => c :: sub2Aux f rest
      else c :: sub2Aux f rest) := rfl

theorem matchWsNl_none {l : List Char}
    (h : ∀ y, l.head? = some y → isReWs y = false) : matchWsNl l = none := by
  rcases l with _ | ⟨c, rest⟩
  · rfl
  · have hc := h c rfl
    rw [matchWsNl_cons, if_neg]
    rw [hc]
    simp

theorem matchWsNl_run : ∀ (w rest : List Char), (∀ c ∈ w, isJsonWs c = true) →
    (∀ y, rest.head? = some y → isReWs y = false) →
    (matchWsNl (w ++ rest) = none ∧ '\n' ∉ w) ∨
    (∃ w2, matchWsNl (w ++ rest) = some (w2 ++ rest) ∧ ∀ c ∈ w2, isJsonWs c = true) := by
  intro w
  induction w with
  | nil =>
    intro rest hws hrest
    left
    exact ⟨matchWsNl_none hrest, by simp⟩
  | cons c w IH =>
    intro rest hws hrest
    have hc : isJsonWs c = true := hws c (by simp)
    have hcre : isReWs c = true := jsonWs_reWs hc
    have hwtl : ∀ x ∈ w, isJsonWs x = true := fun x hx => hws x (by simp [hx])
    rcases IH rest hwtl hrest with ⟨hnone, hnl⟩ | ⟨w2, hsome, hall⟩
    · by_cases hcn : c = '\n'
      · right
        refine ⟨w, ?_, hwtl⟩
        rw [List.cons_append, matchWsNl_cons, if_pos hcre, hnone, if_pos hcn]
      · left
        refine ⟨?_, ?_⟩
        · rw [List.cons_append, matchWsNl_cons, if_pos hcre, hnone, if_neg hcn]
        · intro hmem
          rcases List.mem_cons.mp hmem with hmem | hmem
          · exact hcn hmem.symm
          · exact hnl hmem
    · right
      refine ⟨w2, ?_, hall⟩
      rw [List.cons_append, matchWsNl_cons, if_pos hcre, hsome]

theorem matchFence_none {l : List Char}
    (h : ∀ y, l.head? = some y → y ≠ btC) : matchFence l = none := by
  rcases l with _ | ⟨c1, l1⟩
  · rfl
  rcases l1 with _ | ⟨c2, l2⟩
  · rfl
  rcases l2 with _ | ⟨c3, l3⟩
  · rfl
  · have h1 : c1 ≠ btC := h c1 rfl
    show (if c1 = btC && c2 = btC && c3 = btC then fenceTail l3 else none) = none
    rw [if_neg]
    simp [h1]

theorem matchClose_none {l : List Char}
    (h : ∀ y, l.head? = some y → y ≠ btC) : matchClose l = none := by
  rcases l with _ | ⟨c1, l1⟩
  · rfl
  rcases l1 with _ | ⟨c2, l2⟩
  · rfl
  rcases l2 with _ | ⟨c3, l3⟩
  · rfl
  · have h1 : c1 ≠ btC := h c1 rfl
    show (if c1 = btC && c2 = btC && c3 = btC then matchDollar l3 else none) = none
    rw [if_neg]
    simp [h1]

theorem sub1Aux_copy : ∀ f (atStart : Bool) cs,
    (atStart = true → matchFence cs = none) →
    (∀ a b, cs = a ++ '\n' :: b → matchFence b = none) →
    sub1Aux f atStart cs = cs := by
  intro f
  induction f with
  | zero =>
    intro atStart cs _ _
    rfl
  | succ f IH =>
    intro atStart cs h1 h2
    rw [sub1Aux_succ]
    have hm : (if atStart then matchFence cs else none) = none := by
      cases atStart
      · rfl
      · simpa using h1 rfl
    rw [hm]
    rcases cs with _ | ⟨c, rest⟩
    · rfl
    · show c :: sub1Aux f (c = '\n') rest = c :: rest
      congr 1
      apply IH
      · intro hc
        have hcn : c = '\n' := by simpa using hc
        exact h2 [] rest (by rw [hcn]; rfl)
      · intro a b hab
        exact h2 (c :: a) b (by rw [hab]; rfl)

theorem sub2Aux_strip : ∀ f P, P.length + 2 ≤ f → noBtAfterNl P →
    sub2Aux f (P ++ closeFenceL) = P := by
  intro f
  induction f with
  | zero =>
    intro P hlen _
    exact absurd hlen (by omega)
  | succ f IH =>
    intro P hlen hP
    rcases P with _ | ⟨c, P2⟩
    · have h1 : sub2Aux (f + 1) ([] ++ closeFenceL) = sub2Aux f [] := by
        rw [sub2Aux_succ]
        rfl
      rw [h1]
      rcases f with _ | f2
      · rfl
      · rw [sub2Aux_succ]
    · by_cases hcn : c = '\n'
      · subst hcn
        have hmc : matchClose (P2 ++ closeFenceL) = none := by
          apply matchClose_none
          intro y hy
          rcases P2 with _ | ⟨p0, P3⟩
          · injection hy with hy
            subst hy
            decide
          · injection hy with hy
            subst hy
            exact hP [] (p0 :: P3) rfl p0 rfl
        rw [sub2Aux_succ]
        simp only [List.cons_append, hmc]
        rw [if_pos trivial]
        congr 1
        apply IH P2 (by simp only [List.length_cons] at hlen; omega)
        intro a b hab y hy
        exact hP ('\n' :: a) b (by rw [hab]; rfl) y hy
      · rw [sub2Aux_succ]
        simp only [List.cons_append]
        rw [if_neg hcn]
        congr 1
        apply IH P2 (by simp only [List.length_cons] at hlen; omega)
        intro a b hab y hy
        exact hP (c :: a) b (by rw [hab]; rfl) y hy

theorem fence_cond {P : List Char} (hP : noBtAfterNl P) :
    ∀ a b, P ++ closeFenceL = a ++ '\n' :: b → matchFence b = none := by
  intro a b heq
  rcases List.append_eq_append_iff.mp heq with ⟨k, hk1, hk2⟩ | ⟨k, hk1, hk2⟩
  · -- a = P ++ k, closeFenceL = k ++ '\n' :: b
    rcases k with _ | ⟨k1, k⟩
    · rw [show closeFenceL = '\n' :: [btC, btC, btC] from rfl] at hk2
      injection hk2 with _ hb
      subst hb
      rfl
    · rw [show closeFenceL = '\n' :: [btC, btC, btC] from rfl] at hk2
      injection hk2 with _ h2
      have hmem : '\n' ∈ [btC, btC, btC] := by
        rw [h2]
        simp
      exact absurd hmem (by decide)
  · -- P = a ++ k, '\n' :: b = k ++ closeFenceL
    rcases k with _ | ⟨k1, k⟩
    · rw [show closeFenceL = '\n' :: [btC, btC, btC] from rfl] at hk2
      injection hk2 with _ hb
      subst hb
      rfl
    · injection hk2 with h1 h2
      apply matchFence_none
      intro y hy
      rcases k with _ | ⟨p0, k2⟩
      · have h2b : b = closeFenceL := h2
        subst h2b
        rw [show closeFenceL = '\n' :: [btC, btC, btC] from rfl] at hy
        injection hy with hy
        subst hy
        decide
      · subst h2
        injection hy with hy
        subst hy
        exact hP a (p0 :: k2) (by rw [hk1, ← h1]) p0 rfl

/-! ### C6 — composing the no-backtick-after-newline invariant -/

theorem noBtAfterNl_of_no_bt {l : List Char} (h : ∀ c ∈ l, c ≠ btC) :
    noBtAfterNl l := by
  intro a b hab y hy
  rcases b with _ | ⟨b0, b2⟩
  · exact Option.noConfusion hy
  · injection hy with hy
    subst hy
    exact h b0 (by rw [hab]; simp)

theorem btGuarded_noBtAfterNl {l : List Char} (h : btGuarded l) : noBtAfterNl l :=
  fun a b hab y hy => after_nl_not_bt h a b hab y hy

theorem noBtAfterNl_append {A B : List Char} (ha : noBtAfterNl A) (hb : noBtAfterNl B)
    (hj : A.getLast? = some '\n' → ∀ y, B.head? = some y → y ≠ btC) :
    noBtAfterNl (A ++ B) := by
  intro a b hab y hy
  rcases List.append_eq_append_iff.mp hab with ⟨k, hk1, hk2⟩ | ⟨k, hk1, hk2⟩
  · -- a = A ++ k, B = k ++ '\n' :: b
    exact hb k b hk2 y hy
  · -- A = a ++ k, '\n' :: b = k ++ B
    rcases k with _ | ⟨k1, k2⟩
    · exact hb [] b hk2.symm y hy
    · injection hk2 with h1 h2
      rcases k2 with _ | ⟨p0, k3⟩
      · have hlast : A.getLast? = some '\n' := by
          rw [hk1, ← h1, getLast?_append_right _ _ (by simp)]
          rfl
        have hyB : B.head? = some y := by
          have h2b : b = B := h2
          rw [← h2b]
          exact hy
        exact hj hlast y hyB
      · have hy2 : (p0 :: k3).head? = some y := by
          subst h2
          injection hy with hy
          rw [← hy]
          rfl
        exact ha a (p0 :: k3) (by rw [hk1, ← h1]) y hy2

/-! ### C6 — two-sided whitespace stripping -/

theorem stripBoth_exact {p : Char → Bool} {wl a wr : List Char}
    (hwl : ∀ c ∈ wl, p c = true) (hwr : ∀ c ∈ wr, p c = true)
    (hh : ∀ y, a.head? = some y → p y = false)
    (hl : ∀ y, a.getLast? = some y → p y = false)
    (hne : a ≠ []) :
    (((wl ++ (a ++ wr)).dropWhile p).reverse.dropWhile p).reverse = a := by
  have hhead : ∀ y, (a ++ wr).head? = some y → p y = false := by
    intro y hy
    rcases a with _ | ⟨a0, a2⟩
    · exact absurd rfl hne
    · injection hy with hy
      rw [← hy]
      exact hh a0 rfl
  have h1 : (wl ++ (a ++ wr)).dropWhile p = a ++ wr := by
    rw [dropWhile_append_all _ _ hwl]
    exact dropWhile_of_head _ hhead
  rw [h1, List.reverse_append]
  have h2 : (wr.reverse ++ a.reverse).dropWhile p = a.reverse := by
    rw [dropWhile_append_all _ _ (fun c hc => hwr c (List.mem_reverse.mp hc))]
    apply dropWhile_of_head
    intro y hy
    rw [List.head?_reverse] at hy
    exact hl y hy
  rw [h2, List.reverse_reverse]

theorem trimJsonWs_exact {a : List Char}
    (hh : ∀ y, a.head? = some y → isJsonWs y = false)
    (hl : ∀ y, a.getLast? = some y → isJsonWs y = false)
    (hne : a ≠ []) : trimJsonWs a = a := by
  have h := @stripBoth_exact isJsonWs [] a [] (by simp) (by simp) hh hl hne
  simpa using h

theorem pyStrip_exact {wl a wr : List Char}
    (hwl : ∀ c ∈ wl, isPyWs c = true) (hwr : ∀ c ∈ wr, isPyWs c = true)
    (hh : ∀ y, a.head? = some y → isPyWs y = false)
    (hl : ∀ y, a.getLast? = some y → isPyWs y = false)
    (hne : a ≠ []) : pyStripList (wl ++ (a ++ wr)) = a :=
  stripBoth_exact hwl hwr hh hl hne

theorem trim_decomp (l : List Char) :
    ∃ w1 w2, l = (w1 ++ trimJsonWs l) ++ w2 ∧
      (∀ c ∈ w1, isJsonWs c = true) ∧ (∀ c ∈ w2, isJsonWs c = true) := by
  refine ⟨l.takeWhile isJsonWs,
    ((l.dropWhile isJsonWs).reverse.takeWhile isJsonWs).reverse, ?_, ?_, ?_⟩
  · have hA : l = l.takeWhile isJsonWs ++ l.dropWhile isJsonWs :=
      (List.takeWhile_append_dropWhile isJsonWs l).symm
    have hB0 := List.takeWhile_append_dropWhile isJsonWs (l.dropWhile isJsonWs).reverse
    have hB1 := congrArg List.reverse hB0
    rw [List.reverse_append, List.reverse_reverse] at hB1
    have hB : l.dropWhile isJsonWs = trimJsonWs l ++
        ((l.dropWhile isJsonWs).reverse.takeWhile isJsonWs).reverse := hB1.symm
    conv_lhs => rw [hA, hB]
    rw [List.append_assoc]
  · intro c hc
    exact List.mem_takeWhile_imp hc
  · intro c hc
    exact List.mem_takeWhile_imp (List.mem_reverse.mp hc)

theorem head?_mem {α : Type} {l : List α} {y : α} (h : l.head? = some y) : y ∈ l := by
  rcases l with _ | ⟨a, l2⟩
  · exact Option.noConfusion h
  · injection h with h
    rw [← h]
    simp

theorem matchFence_wrap {tagd R res : List Char}
    (htag : tagd = [] ∨ tagd = ['j', 's', 'o', 'n'])
    (hmw : matchWsNl ('\n' :: R) = some res) :
    matchFence (btC :: btC :: btC :: (tagd ++ '\n' :: R)) = some res := by
  have hstep : matchFence (btC :: btC :: btC :: (tagd ++ '\n' :: R)) =
      fenceTail (tagd ++ '\n' :: R) := by
    show (if btC = btC && btC = btC && btC = btC then fenceTail (tagd ++ '\n' :: R)
      else none) = fenceTail (tagd ++ '\n' :: R)
    rw [if_pos (by decide)]
  rw [hstep]
  rcases htag with h | h <;> subst h
  · show fenceTail ('\n' :: R) = some res
    unfold fenceTail
    rw [if_neg (show ¬((['j', 's', 'o', 'n'].isPrefixOf ('\n' :: R)) = true) from by
      rw [show (['j', 's', 'o', 'n'].isPrefixOf ('\n' :: R)) = false from rfl]
      simp)]
    exact hmw
  · show fenceTail ('j' :: 's' :: 'o' :: 'n' :: '\n' :: R) = some res
    unfold fenceTail
    rw [if_pos (show (['j', 's', 'o', 'n'].isPrefixOf
        ('j' :: 's' :: 'o' :: 'n' :: '\n' :: R)) = true from by
      simp [List.isPrefixOf])]
    rw [show ('j' :: 's' :: 'o' :: 'n' :: '\n' :: R).drop 4 = '\n' :: R from rfl, hmw]

/-- **C6.** Round-trip of the normalizer's markdown stripping: if a string
`s` parses as JSON value `v`, then wrapping `s` in a fenced code block
(triple backtick, optional `json` language tag, newline, `s`, newline,
triple backtick) and running the response normalizer of `generate_plan`
(the two MULTILINE `re.sub` fence substitutions followed by `.strip()`)
yields a string that parses to exactly the same value `v`. -/
theorem c6_normalizer_roundtrip (s : String) (v : Json) (tag : String)
    (htag : tag = "" ∨ tag = "json") (hs : jsonParse s = some v) :
    jsonParse (normalizePlanText
      ("\x60\x60\x60" ++ tag ++ "\n" ++ s ++ "\n\x60\x60\x60")) = some v := by
  unfold jsonParse at hs
  dsimp only at hs
  split at hs
  · rename_i v2 hmatch
    injection hs with hs
    subst hs
    obtain ⟨u0, hu0, hgood⟩ :=
      (parse_chunks ((trimJsonWs s.data).length + 1)).1 (trimJsonWs s.data) v2 [] hmatch
    rw [List.append_nil] at hu0
    rw [hu0] at hmatch
    obtain ⟨⟨h0, hh0, hvalhead⟩, ⟨lx, hlx, hvallast⟩, hbtu⟩ := hgood
    have hune : u0 ≠ [] := by
      intro hnil
      rw [hnil] at hh0
      exact Option.noConfusion hh0
    obtain ⟨wL, wR, hsplit, hwL, hwR⟩ := trim_decomp s.data
    rw [hu0] at hsplit
    have hd1 : ("\x60\x60\x60" : String).data = [btC, btC, btC] := rfl
    have hd2 : ("\n" : String).data = ['\n'] := rfl
    have hd3 : ("\n\x60\x60\x60" : String).data = closeFenceL := rfl
    have htagd : (("\x60\x60\x60" ++ tag ++ "\n" ++ s ++ "\n\x60\x60\x60") : String).data =
        btC :: btC :: btC :: (tag.data ++ '\n' :: (s.data ++ closeFenceL)) := by
      simp only [String.data_append, hd1, hd2, hd3]
      simp
      exact ⟨rfl, rfl⟩
    have htd : tag.data = [] ∨ tag.data = ['j', 's', 'o', 'n'] := by
      rcases htag with h | h <;> subst h
      · exact Or.inl rfl
      · exact Or.inr rfl
    have hsd : s.data ++ closeFenceL = wL ++ (u0 ++ (wR ++ closeFenceL)) := by
      rw [hsplit]
      simp [List.append_assoc]
    have hresthead : ∀ y, (u0 ++ (wR ++ closeFenceL)).head? = some y →
        isReWs y = false := by
      intro y hy
      rcases head?_append_cases _ _ _ hy with h | ⟨hnil, _⟩
      · rw [hh0] at h
        injection h with h
        rw [← h]
        exact valHead_not_reWs hvalhead
      · exact absurd hnil hune
    have hrun := matchWsNl_run ('\n' :: wL) (u0 ++ (wR ++ closeFenceL))
      (by
        intro c hc
        rcases List.mem_cons.mp hc with hc | hc
        · subst hc; decide
        · exact hwL c hc) hresthead
    rcases hrun with ⟨_, hnl⟩ | ⟨w2, hsome, hw2⟩
    · exact absurd (by simp : '\n' ∈ '\n' :: wL) hnl
    · have hcs0 : w2 ++ (u0 ++ (wR ++ closeFenceL)) = ((w2 ++ u0) ++ wR) ++ closeFenceL := by
        simp [List.append_assoc]
      have hnBt : noBtAfterNl ((w2 ++ u0) ++ wR) := by
        apply noBtAfterNl_append
        · apply noBtAfterNl_append
          · exact noBtAfterNl_of_no_bt (fun c hc => jsonWs_ne_bt (hw2 c hc))
          · exact btGuarded_noBtAfterNl hbtu
          · intro _ y hy
            rw [hh0] at hy
            injection hy with hy
            rw [← hy]
            exact valHead_ne_bt hvalhead
        · exact noBtAfterNl_of_no_bt (fun c hc => jsonWs_ne_bt (hwR c hc))
        · intro hlastnl
          rw [getLast?_append_right _ _ hune, hlx] at hlastnl
          injection hlastnl with hl2
          rw [hl2] at hvallast
          exact absurd hvallast (by decide)
      have hM : matchFence (btC :: btC :: btC ::
          (tag.data ++ '\n' :: (s.data ++ closeFenceL))) =
          some (w2 ++ (u0 ++ (wR ++ closeFenceL))) := by
        apply matchFence_wrap htd
        rw [hsd]
        exact hsome
      have hfc1 : matchFence (w2 ++ (u0 ++ (wR ++ closeFenceL))) = none := by
        apply matchFence_none
        intro y hy
        rcases head?_append_cases _ _ _ hy with h | ⟨hnil2, h⟩
        · exact jsonWs_ne_bt (hw2 y (head?_mem h))
        · rcases head?_append_cases _ _ _ h with h2 | ⟨hnil3, h2⟩
          · rw [hh0] at h2
            injection h2 with h2
            rw [← h2]
            exact valHead_ne_bt hvalhead
          · exact absurd hnil3 hune
      have hfc2 : ∀ a b, w2 ++ (u0 ++ (wR ++ closeFenceL)) = a ++ '\n' :: b →
          matchFence b = none := by
        intro a b hab
        apply fence_cond hnBt a b
        rw [← hcs0]
        exact hab
      have hsub1 : sub1Aux ((btC :: btC :: btC ::
          (tag.data ++ '\n' :: (s.data ++ closeFenceL))).length + 1) true
          (btC :: btC :: btC :: (tag.data ++ '\n' :: (s.data ++ closeFenceL))) =
          w2 ++ (u0 ++ (wR ++ closeFenceL)) := by
        rw [sub1Aux_succ, if_pos rfl, hM]
        exact sub1Aux_copy _ true _ (fun _ => hfc1) hfc2
      have hsub2 : sub2Aux ((w2 ++ (u0 ++ (wR ++ closeFenceL))).length + 1)
          (w2 ++ (u0 ++ (wR ++ closeFenceL))) = (w2 ++ u0) ++ wR := by
        rw [hcs0]
        apply sub2Aux_strip
        · simp only [List.length_append, closeFenceL, List.length_cons,
            List.length_nil]
          omega
        · exact hnBt
      have hstrip : pyStripList ((w2 ++ u0) ++ wR) = u0 := by
        rw [List.append_assoc]
        apply pyStrip_exact
        · intro c hc
          exact jsonWs_pyWs (hw2 c hc)
        · intro c hc
          exact jsonWs_pyWs (hwR c hc)
        · intro y hy
          rw [hh0] at hy
          injection hy with hy
          rw [← hy]
          exact valHead_not_pyWs hvalhead
        · intro y hy
          rw [hlx] at hy
          injection hy with hy
          rw [← hy]
          exact valLast_not_pyWs hvallast
        · exact hune
      unfold normalizePlanText
      dsimp only
      rw [htagd, hsub1, hsub2, hstrip]
      unfold jsonParse
      dsimp only
      have hheadNotWs : ∀ y, u0.head? = some y → isJsonWs y = false := by
        intro y hy
        rw [hh0] at hy
        injection hy with hy
        rw [← hy]
        exact valHead_not_jsonWs hvalhead
      have hlastNotWs : ∀ y, u0.getLast? = some y → isJsonWs y = false := by
        intro y hy
        rw [hlx] at hy
        injection hy with hy
        rw [← hy]
        exact valLast_not_jsonWs hvallast
      rw [trimJsonWs_exact hheadNotWs hlastNotWs hune, hmatch]
  all_goals exact Option.noConfusion hs

/-- Witness for C6 at a concrete input: the JSON text `{"a": 1}` wrapped
in a `json`-tagged markdown fence normalizes back to a string parsing to
the same object. -/
theorem c6_normalizer_roundtrip_witness :
    jsonParse "\x7b\x22a\x22: 1\x7d" = some (Json.obj [(['a'], Json.num ['1'])]) ∧
    ("json" = "" ∨ "json" = "json") ∧
    jsonParse (normalizePlanText ("\x60\x60\x60" ++ "json" ++ "\n" ++
        "\x7b\x22a\x22: 1\x7d" ++ "\n\x60\x60\x60")) =
      some (Json.obj [(['a'], Json.num ['1'])]) :=
  ⟨rfl, Or.inr rfl,
    c6_normalizer_roundtrip "\x7b\x22a\x22: 1\x7d" (Json.obj [(['a'], Json.num ['1'])])
      "json" (Or.inr rfl) rfl⟩

end AiPlanner
